import Mathlib

/-!
Verification of the unused-asset finder of the RPG-Maker-MZ-UnusedFilesRemoval
repository (`Unused_assets.py`, with `Unused_assets_Gem.py` as a near-duplicate
revision).  The Python functions are shallowly embedded as executable Lean
definitions:

* strings are Lean `String`s; Python substring / endswith tests become
  executable predicates over `List Char`;
* Python `set`s are modelled extensionally as canonical (strictly sorted,
  duplicate-free) lists, so that set iteration is deterministic;
* file-system reads and JSON parsing are abstracted into a pure environment
  `Env` (the directory is untouched during a run, so every read is a pure
  function of the directory); the logic that consumes the parsed data is
  translated from the source;
* JSON values are modelled by the mutual inductive `JVal`, with Python `None`
  identified with JSON `null` exactly as `json.load` does.
-/

/-! ## Characters and strings -/

/-- Boolean test that `pat` is a prefix of `l` (Python `startswith` on lists of
characters). -/
def startsList : List Char → List Char → Bool
  | [], _ => true
  | _ :: _, [] => false
  | a :: as, b :: bs => a == b && startsList as bs

/-- Boolean test that `pat` occurs as a contiguous sublist of `l`
(Python's `pat in s` for strings). -/
def occursL (pat : List Char) : List Char → Bool
  | [] => pat.isEmpty
  | b :: bs => startsList pat (b :: bs) || occursL pat bs

/-- Python `pat in s` on strings: `pat` occurs as a substring of `s`. -/
def strHas (s pat : String) : Bool := occursL pat.data s.data

/-- Python `s.endswith(t)`. -/
def strEnds (s t : String) : Bool := startsList t.data.reverse s.data.reverse

/-- Python `s.startswith(t)`. -/
def strStarts (s t : String) : Bool := startsList t.data s.data

/-- Python `s.lower()` (ASCII view, which is all the source uses it for). -/
def lowerStr (s : String) : String := ⟨s.data.map Char.toLower⟩

/-- Character image under `.replace("\\", "/")`. -/
def normChar (c : Char) : Char := if c = '\\' then '/' else c

/-- Python `s.replace("\\", "/")`, applied by the source to every joined
path. -/
def normSlash (s : String) : String := ⟨s.data.map normChar⟩

/-- Model of `os.path.join(a, b).replace("\\", "/")` (Windows separator, then
normalised; the source always normalises immediately after joining). -/
def pjoin2 (a b : String) : String := normSlash (a ++ "\\" ++ b)

/-- Model of `os.path.join(a, b, c).replace("\\", "/")`. -/
def pjoin3 (a b c : String) : String := normSlash (a ++ "\\" ++ b ++ "\\" ++ c)

/-- Model of `os.path.join(a, b, c, d).replace("\\", "/")`. -/
def pjoin4 (a b c d : String) : String :=
  normSlash (a ++ "\\" ++ b ++ "\\" ++ c ++ "\\" ++ d)

/-- Model of `os.path.basename` (ntpath): the part of the path after the last
`/` or `\`. -/
def basenameStr (s : String) : String :=
  ⟨(s.data.reverse.takeWhile (fun c => !(c == '/' || c == '\\'))).reverse⟩

/-- Model of `os.path.splitext(b)[0]` for a separator-free basename `b`
(ntpath): cut at the last dot, unless every character before that dot is
itself a dot (so `".png"` has no extension). -/
def stemOf (b : String) : String :=
  match b.data.reverse.findIdx? (· == '.') with
  | none => b
  | some k =>
      let i := b.data.length - 1 - k
      if (b.data.take i).all (· == '.') then b else ⟨b.data.take i⟩

/-! ## A computable strict order

Mathlib's `<` on `String` is decided through `String.ltb`, a well-founded
recursion over byte iterators that the kernel cannot evaluate; concrete
runs of the model are checked by `decide`, so the order used for canonical
sets is a structurally recursive boolean comparator, proved equivalent to
the mathematical order. -/

/-- Lexicographic comparison of character lists. -/
def charListLt : List Char → List Char → Bool
  | _, [] => false
  | [], _ :: _ => true
  | a :: as, b :: bs =>
      if a < b then true else if b < a then false else charListLt as bs

/-- Lexicographic comparison of strings (Python `<` on `str`, restricted to
comparison by code point). -/
def strLtB (a b : String) : Bool := charListLt a.data b.data

theorem charListLt_iff_lex : ∀ x y : List Char,
    charListLt x y = true ↔ List.Lex (· < ·) x y
  | x, [] => by
      cases x <;>
        simp [charListLt, List.Lex.not_nil_right]
  | [], b :: bs => by
      simp [charListLt]
      exact List.Lex.nil
  | a :: as, b :: bs => by
      by_cases hab : a < b
      · simp only [charListLt, if_pos hab, true_iff]
        exact List.Lex.rel hab
      · by_cases hba : b < a
        · simp only [charListLt, if_neg hab, if_pos hba, Bool.false_eq_true,
            false_iff]
          intro hlex
          cases hlex with
          | rel h => exact hab h
          | cons h => exact lt_irrefl _ hba
        · have heq : a = b := le_antisymm (not_lt.mp hba) (not_lt.mp hab)
          subst heq
          simp only [charListLt, if_neg hab, if_neg hba]
          rw [charListLt_iff_lex as bs]
          exact (List.Lex.cons_iff).symm

/-- The boolean comparator agrees with the order on `String`. -/
theorem strLtB_iff (a b : String) : strLtB a b = true ↔ a < b := by
  rw [strLtB, charListLt_iff_lex, String.lt_iff_toList_lt]
  rfl

/-- A boolean comparator deciding a linear order's `<` by structural
recursion (so that the kernel can evaluate it). -/
class LtbOrder (α : Type) [LinearOrder α] where
  ltb : α → α → Bool
  ltb_iff : ∀ a b : α, ltb a b = true ↔ a < b

/-- The comparator of an order. -/
def lb {α : Type} [LinearOrder α] [LtbOrder α] (a b : α) : Bool :=
  LtbOrder.ltb a b

theorem lb_iff {α : Type} [LinearOrder α] [LtbOrder α] (a b : α) :
    lb a b = true ↔ a < b := LtbOrder.ltb_iff a b

instance : LtbOrder String := ⟨strLtB, strLtB_iff⟩

instance : LtbOrder Int := ⟨fun a b => decide (a < b), by intro a b; simp⟩

/-! ## Python sets, modelled canonically

A CPython `set` is iterated in an unspecified order; the model fixes the
canonical order: a set is a strictly sorted duplicate-free list, `add` is
ordered insertion, `remove`/discard is `List.erase`, and iterating the set
iterates the canonical list. -/

/-- Ordered insertion into a canonical list (`set.add`). -/
def sadd {α : Type} [LinearOrder α] [BEq α] [LawfulBEq α] [LtbOrder α]
    (x : α) : List α → List α
  | [] => [x]
  | y :: rest =>
      if x == y then y :: rest
      else if lb x y then x :: y :: rest
      else y :: sadd x rest

/-- Add every element of `l` (`set.update`). -/
def saddAll {α : Type} [LinearOrder α] [BEq α] [LawfulBEq α] [LtbOrder α]
    (l : List α) (s : List α) : List α :=
  l.foldl (fun t x => sadd x t) s

/-- Discard every element of `l` (`if x in s: s.remove(x)`, repeatedly;
`List.erase` of an absent element is the identity, matching the guarded
`remove`). -/
def eraseAll {α : Type} [BEq α] (l : List α) (s : List α) : List α :=
  l.foldl (fun t x => t.erase x) s

/-- A canonical set representation: strictly sorted (hence duplicate-free). -/
abbrev canonL {α : Type} [LinearOrder α] (s : List α) : Prop :=
  List.Sorted (· < ·) s

theorem lb_eq_false {α : Type} [LinearOrder α] [LtbOrder α] {a b : α}
    (h : ¬ a < b) : lb a b = false := by
  rw [← Bool.not_eq_true, lb_iff]; exact h

theorem mem_sadd {α : Type} [LinearOrder α] [BEq α] [LawfulBEq α]
    [LtbOrder α] (x a : α) (s : List α) :
    a ∈ sadd x s ↔ a = x ∨ a ∈ s := by
  induction s with
  | nil => simp [sadd]
  | cons y rest ih =>
      by_cases h1 : x = y
      · subst h1; simp [sadd]
      · by_cases h2 : x < y
        · simp [sadd, beq_iff_eq, h1, (lb_iff x y).mpr h2]
        · simp only [sadd, beq_iff_eq, h1, lb_eq_false h2, if_false,
            Bool.false_eq_true, List.mem_cons, ih]
          tauto

theorem canon_sadd {α : Type} [LinearOrder α] [BEq α] [LawfulBEq α]
    [LtbOrder α] (x : α) {s : List α}
    (h : canonL s) : canonL (sadd x s) := by
  induction s with
  | nil => simp [sadd, canonL]
  | cons y rest ih =>
      have hy : List.Sorted (· < ·) rest := h.of_cons
      have hall : ∀ b ∈ rest, y < b := fun b hb => List.rel_of_sorted_cons h b hb
      by_cases h1 : x = y
      · subst h1; simpa [sadd] using h
      · by_cases h2 : x < y
        · simp only [sadd, beq_iff_eq, h1, (lb_iff x y).mpr h2, if_true,
            if_false, Bool.false_eq_true]
          refine List.sorted_cons.mpr ⟨?_, h⟩
          intro b hb
          rcases List.mem_cons.mp hb with rfl | hb'
          · exact h2
          · exact lt_trans h2 (hall b hb')
        · have hyx : y < x := lt_of_le_of_ne (not_lt.mp h2) (Ne.symm h1)
          simp only [sadd, beq_iff_eq, h1, lb_eq_false h2, if_false,
            Bool.false_eq_true]
          refine List.sorted_cons.mpr ⟨?_, ih hy⟩
          intro b hb
          rcases (mem_sadd x b rest).mp hb with rfl | hb'
          · exact hyx
          · exact hall b hb'

theorem sadd_eq_of_mem {α : Type} [LinearOrder α] [BEq α] [LawfulBEq α]
    [LtbOrder α] {x : α} {s : List α}
    (hc : canonL s) (hx : x ∈ s) : sadd x s = s := by
  induction s with
  | nil => cases hx
  | cons y rest ih =>
      rcases List.mem_cons.mp hx with rfl | hx'
      · simp [sadd]
      · have hyx : y < x := List.rel_of_sorted_cons hc x hx'
        have h1 : ¬ x = y := fun h => absurd hyx (by simp [h])
        have h2 : ¬ x < y := not_lt.mpr (le_of_lt hyx)
        simp [sadd, beq_iff_eq, h1, lb_eq_false h2, ih hc.of_cons hx']

theorem mem_saddAll {α : Type} [LinearOrder α] [BEq α] [LawfulBEq α] [LtbOrder α] (l : List α) (s : List α)
    (a : α) : a ∈ saddAll l s ↔ a ∈ l ∨ a ∈ s := by
  induction l generalizing s with
  | nil => simp [saddAll]
  | cons x rest ih =>
      simp only [saddAll, List.foldl_cons] at *
      rw [ih (sadd x s)]
      simp only [mem_sadd, List.mem_cons]
      tauto

theorem canon_saddAll {α : Type} [LinearOrder α] [BEq α] [LawfulBEq α] [LtbOrder α] (l : List α) {s : List α}
    (h : canonL s) : canonL (saddAll l s) := by
  induction l generalizing s with
  | nil => simpa [saddAll]
  | cons x rest ih => exact ih (canon_sadd x h)

theorem saddAll_eq_of_subset {α : Type} [LinearOrder α] [BEq α] [LawfulBEq α] [LtbOrder α] {l s : List α}
    (hc : canonL s) (h : ∀ x ∈ l, x ∈ s) : saddAll l s = s := by
  induction l with
  | nil => rfl
  | cons x rest ih =>
      have hx : x ∈ s := h x (by simp)
      simp only [saddAll, List.foldl_cons, sadd_eq_of_mem hc hx]
      exact ih fun y hy => h y (by simp [hy])

theorem eraseAll_sublist {α : Type} [BEq α] (l s : List α) :
    (eraseAll l s).Sublist s := by
  induction l generalizing s with
  | nil => simp [eraseAll]
  | cons x rest ih =>
      simp only [eraseAll, List.foldl_cons]
      exact (ih (s.erase x)).trans (List.erase_sublist x s)

theorem canon_eraseAll {α : Type} [LinearOrder α] [BEq α] (l : List α)
    {s : List α} (h : canonL s) : canonL (eraseAll l s) :=
  List.Pairwise.sublist (eraseAll_sublist l s) h

/-- Canonical lists with the same members are equal. -/
theorem canonL_ext {α : Type} [LinearOrder α] {s t : List α}
    (hs : canonL s) (ht : canonL t) (h : ∀ a, a ∈ s ↔ a ∈ t) : s = t := by
  haveI : IsAntisymm α (· < ·) := ⟨fun a b h1 h2 => absurd h1 (lt_asymm h2)⟩
  have hns : s.Nodup := hs.nodup
  have hnt : t.Nodup := ht.nodup
  exact List.eq_of_perm_of_sorted ((List.perm_ext_iff_of_nodup hns hnt).mpr h)
    hs ht

/-- Union-of-image fold: add `g x` for every `x` of `l` (the shape of several
collection loops in the source). -/
def unionFold {α β : Type} [LinearOrder α] [BEq α] [LawfulBEq α] [LtbOrder α] (g : β → List α) (l : List β)
    (init : List α) : List α :=
  l.foldl (fun t x => saddAll (g x) t) init

theorem mem_unionFold {α β : Type} [LinearOrder α] [BEq α] [LawfulBEq α] [LtbOrder α] (g : β → List α)
    (l : List β) (init : List α) (a : α) :
    a ∈ unionFold g l init ↔ (∃ x ∈ l, a ∈ g x) ∨ a ∈ init := by
  induction l generalizing init with
  | nil => simp [unionFold]
  | cons x rest ih =>
      simp only [unionFold, List.foldl_cons] at *
      rw [ih (saddAll (g x) init)]
      simp only [mem_saddAll, List.mem_cons]
      constructor
      · rintro (⟨y, hy, hay⟩ | h | h)
        · exact Or.inl ⟨y, Or.inr hy, hay⟩
        · exact Or.inl ⟨x, Or.inl rfl, h⟩
        · exact Or.inr h
      · rintro (⟨y, rfl | hy, hay⟩ | h)
        · exact Or.inr (Or.inl hay)
        · exact Or.inl ⟨y, hy, hay⟩
        · exact Or.inr (Or.inr h)

theorem canon_unionFold {α β : Type} [LinearOrder α] [BEq α] [LawfulBEq α] [LtbOrder α] (g : β → List α)
    (l : List β) {init : List α} (h : canonL init) :
    canonL (unionFold g l init) := by
  induction l generalizing init with
  | nil => simpa [unionFold]
  | cons x rest ih => exact ih (canon_saddAll _ h)

/-! ## The reference matcher (`search_content_for_file`)

The Python function returns `True`, `False`, or falls off the end
(returning `None`); the model returns `Option Bool` with `none` for the
implicit `None`, and `pyTruthy` gives the truth value a caller sees. -/

/-- Python truthiness of the matcher's return value. -/
def pyTruthy : Option Bool → Bool
  | some true => true
  | _ => false

/-- Translation of `search_content_for_file(content, source_file, target_file)`
from `Unused_assets.py` (lines 202-237). -/
def search_content_for_file (content source_file target_file : String) :
    Option Bool :=
  if strEnds source_file ".efkefc" then
    if strEnds target_file ".png" then
      if strHas content (basenameStr target_file) then some true
      else none
    else some false
  else
    let base_file := basenameStr target_file
    let name_file := stemOf base_file
    let search_patterns : List String :=
      ["\"" ++ name_file ++ "\"",
       "/" ++ name_file,
       name_file ++ "\\",
       base_file]
    if search_patterns.any (fun pattern => strHas content pattern) then
      some true
    else some false

/-! ## The plugin resolver (`get_used_plugins`)

Reading and JSON-parsing `plugins.js` is abstracted: `pluginsExists` tells
whether the file exists, `parse` is the outcome of parsing the `[` .. `]`
span (`some names` on success, `none` when `index`/`json.loads` raised the
caught `ValueError`/`JSONDecodeError`), and `mainFiles` is the list of
quoted `*.js`/`*.json` references the regular expression finds in
`main.js`.  The list-building logic is translated from the source. -/

/-- Strip a leading `js/` from a `main.js` reference (lines 106-107). -/
def stripJsSlash (f : String) : String :=
  if strStarts f "js/" then ⟨f.data.drop 3⟩ else f

/-- Translation of `get_used_plugins` (lines 60-109): manifest-derived
`plugins/<name>.js` entries, then the two unconditional entries, then the
`main.js`-derived references. -/
def get_used_plugins (pluginsExists : Bool) (parse : Option (List String))
    (mainFiles : List String) : List String :=
  (match pluginsExists, parse with
   | true, some names => names.map (fun n => "plugins/" ++ n ++ ".js")
   | _, _ => []) ++
  ["plugins.js", "main.js"] ++
  mainFiles.map stripJsSlash

/-! ## JSON values

`json.load` produces nested dicts/lists/scalars; JSON `null` and Python
`None` are the same value, written `JVal.null` (numbers are restricted to
the integers, which is all the animation-id logic compares against). -/

mutual

inductive JVal where
  | null
  | boolv (b : Bool)
  | num (n : Int)
  | str (s : String)
  | arr (xs : JArr)
  | obj (fs : JObj)

inductive JArr where
  | nil
  | cons (hd : JVal) (tl : JArr)

inductive JObj where
  | nil
  | cons (key : String) (val : JVal) (tl : JObj)

end

/-- The `is None` test (Python `None` = JSON `null`). -/
def isNull : JVal → Bool
  | .null => true
  | _ => false

/-- Python `isinstance(v, (dict, list))`. -/
def isContainer : JVal → Bool
  | .obj _ => true
  | .arr _ => true
  | _ => false

/-- Python truthiness of a JSON value (`if animation_id:`). -/
def jTruthy : JVal → Bool
  | .null => false
  | .boolv b => b
  | .num n => !(n == 0)
  | .str s => !(s == "")
  | .arr .nil => false
  | .arr (.cons _ _) => true
  | .obj .nil => false
  | .obj (.cons _ _ _) => true

/-- Python `v == -1` for a JSON value (only an integer equals `-1`; the
booleans are the integers `0`/`1` and differ from `-1`). -/
def isNegOne : JVal → Bool
  | .num n => n == -1
  | _ => false

/-- Dictionary lookup (`d[k]` / `d.get(k)`): first binding of the key. -/
def jobjGet : JObj → String → Option JVal
  | .nil, _ => none
  | .cons k v tl, key => if k = key then some v else jobjGet tl key

/-- The underlying list of an array value. -/
def jarrList : JArr → List JVal
  | .nil => []
  | .cons x tl => x :: jarrList tl

mutual

/-- Translation of `extract_key_value(data, key)` (lines 172-200): Python
returns the matched value or `None`; since JSON `null` is Python `None`,
the model returns `JVal` with `.null` for a miss. -/
def extract_key_value : JVal → String → JVal
  | .obj fs, key => extractObj fs key
  | .arr xs, key => extractArr xs key
  | _, _ => .null

/-- The dict branch of `extract_key_value`: check each key, else recurse
into container values, keeping the first non-`None` result. -/
def extractObj : JObj → String → JVal
  | .nil, _ => .null
  | .cons k v tl, key =>
      if k = key then v
      else if isContainer v then
        (if isNull (extract_key_value v key) then extractObj tl key
         else extract_key_value v key)
      else extractObj tl key

/-- The list branch of `extract_key_value`: recurse into each item, keeping
the first non-`None` result. -/
def extractArr : JArr → String → JVal
  | .nil, _ => .null
  | .cons x tl, key =>
      if isNull (extract_key_value x key) then extractArr tl key
      else extract_key_value x key

end

mutual

/-- All values stored under `key`, in the depth-first traversal order of
`extract_key_value` (a dictionary entry's own key is checked before its
value is descended into; list items in order). -/
def occKV : JVal → String → List JVal
  | .obj fs, key => occObj fs key
  | .arr xs, key => occArr xs key
  | _, _ => []

/-- Occurrence list for a dictionary. -/
def occObj : JObj → String → List JVal
  | .nil, _ => []
  | .cons k v tl, key =>
      (if k = key then v :: occKV v key else occKV v key) ++ occObj tl key

/-- Occurrence list for a list. -/
def occArr : JArr → String → List JVal
  | .nil, _ => []
  | .cons x tl, key => occKV x key ++ occArr tl key

end

/-- Translation of the animation-id collection loop (lines 418-427): for
each top-level item of a parsed JSON file, the first `animationId`
occurrence is taken; truthy values other than `-1` are collected. -/
def collectAnimIds : JArr → List JVal
  | .nil => []
  | .cons item tl =>
      let animation_id := extract_key_value item "animationId"
      if jTruthy animation_id && !(isNegOne animation_id) then
        animation_id :: collectAnimIds tl
      else collectAnimIds tl

/-- A non-container value holds no occurrences. -/
theorem occKV_scalar (v : JVal) (key : String) (h : isContainer v = false) :
    occKV v key = [] := by
  cases v <;> simp_all [isContainer, occKV]

mutual

/-- When no occurrence of `key` carries a `null` value, `extract_key_value`
returns the value of the first occurrence in depth-first order (and `null`
when the key is absent). -/
theorem extract_eq_headD_val (d : JVal) (key : String)
    (h : ∀ v ∈ occKV d key, isNull v = false) :
    extract_key_value d key = (occKV d key).headD .null :=
  match d with
  | .null => by simp [extract_key_value, occKV]
  | .boolv _ => by simp [extract_key_value, occKV]
  | .num _ => by simp [extract_key_value, occKV]
  | .str _ => by simp [extract_key_value, occKV]
  | .arr xs => by
      simpa [extract_key_value, occKV] using
        extract_eq_headD_arr xs key (by simpa [occKV] using h)
  | .obj fs => by
      simpa [extract_key_value, occKV] using
        extract_eq_headD_obj fs key (by simpa [occKV] using h)

/-- Dictionary case of `extract_eq_headD_val`. -/
theorem extract_eq_headD_obj (fs : JObj) (key : String)
    (h : ∀ v ∈ occObj fs key, isNull v = false) :
    extractObj fs key = (occObj fs key).headD .null :=
  match fs with
  | .nil => by simp [extractObj, occObj]
  | .cons k v tl => by
      by_cases hk : k = key
      · simp [extractObj, occObj, hk]
      · by_cases hc : isContainer v
        · have hv := extract_eq_headD_val v key (by
            intro w hw
            exact h w (by simp [occObj, hk, hw]))
          cases hocc : occKV v key with
          | nil =>
              have hnull : extract_key_value v key = .null := by
                rw [hv, hocc]; rfl
              have htl := extract_eq_headD_obj tl key (by
                intro w hw
                exact h w (by simp [occObj, hk, hw]))
              simp [extractObj, occObj, hk, hc, hnull, isNull, hocc, htl]
          | cons h0 rest =>
              have hh0 : extract_key_value v key = h0 := by
                rw [hv, hocc]; rfl
              have hn : isNull h0 = false := by
                refine h h0 ?_
                simp [occObj, hk, hocc]
              simp [extractObj, occObj, hk, hc, hh0, hn, hocc]
        · have hocc : occKV v key = [] :=
            occKV_scalar v key (by simpa using hc)
          have htl := extract_eq_headD_obj tl key (by
            intro w hw
            exact h w (by simp [occObj, hk, hw]))
          simp [extractObj, occObj, hk, hc, hocc, htl]

/-- List case of `extract_eq_headD_val`. -/
theorem extract_eq_headD_arr (xs : JArr) (key : String)
    (h : ∀ v ∈ occArr xs key, isNull v = false) :
    extractArr xs key = (occArr xs key).headD .null :=
  match xs with
  | .nil => by simp [extractArr, occArr]
  | .cons x tl => by
      have hx := extract_eq_headD_val x key (by
        intro w hw
        exact h w (by simp [occArr, hw]))
      cases hocc : occKV x key with
      | nil =>
          have hnull : extract_key_value x key = .null := by
            rw [hx, hocc]; rfl
          have htl := extract_eq_headD_arr tl key (by
            intro w hw
            exact h w (by simp [occArr, hw]))
          simp [extractArr, occArr, hnull, isNull, hocc, htl]
      | cons h0 rest =>
          have hh0 : extract_key_value x key = h0 := by
            rw [hx, hocc]; rfl
          have hn : isNull h0 = false := by
            refine h h0 ?_
            simp [occArr, hocc]
          simp [extractArr, occArr, hh0, hn, hocc]

end

/-- The collection loop in map/filter form. -/
theorem collectAnimIds_eq : ∀ items : JArr,
    collectAnimIds items =
      ((jarrList items).map
          (fun item => extract_key_value item "animationId")).filter
        (fun a => jTruthy a && !(isNegOne a))
  | .nil => rfl
  | .cons hd tl => by
      simp only [collectAnimIds, jarrList, List.map_cons, List.filter_cons]
      rw [collectAnimIds_eq tl]

/-- Membership description of the collection loop: a value is collected
exactly when some top-level item's first `animationId` occurrence is that
value, the value is truthy, and it is not the sentinel `-1`. -/
theorem mem_collectAnimIds (items : JArr) (a : JVal) :
    a ∈ collectAnimIds items ↔
      ∃ item ∈ jarrList items,
        extract_key_value item "animationId" = a ∧ jTruthy a = true ∧
        isNegOne a = false := by
  rw [collectAnimIds_eq]
  simp only [List.mem_filter, List.mem_map]
  constructor
  · rintro ⟨⟨item, hitem, rfl⟩, hcond⟩
    simp only [Bool.and_eq_true, Bool.not_eq_true'] at hcond
    exact ⟨item, hitem, rfl, hcond.1, hcond.2⟩
  · rintro ⟨item, hitem, rfl, ht, hn⟩
    exact ⟨⟨item, hitem, rfl⟩, by simp [ht, hn]⟩

/-! ## The sound-timing extraction (`find_unused_files` lines 548-570)

The loop over `animation_data.get('soundTimings', [])` is translated with
its exception behaviour made explicit: in `Unused_assets.py` the
surrounding `try`/`except` is commented out, so a raised exception
propagates out of `find_unused_files`.  The local variable `se` is only
assigned in the dict branch, so reading it earlier raises
`UnboundLocalError`; in the nested-list branch the source calls
`timing.get('se')` on the *list* `timing`, which raises `AttributeError`
as soon as a dict item is seen. -/

inductive PyErr where
  | keyError
  | typeError
  | attributeError
  | unboundLocal

/-- Python `isinstance(v, dict)`. -/
def isObjV : JVal → Bool
  | .obj _ => true
  | _ => false

/-- Python `isinstance(v, str)`. -/
def isStrV : JVal → Bool
  | .str _ => true
  | _ => false

/-- Whether a list contains a dict item (the nested-list branch raises at
the first one). -/
def jarrHasObj : JArr → Bool
  | .nil => false
  | .cons x tl => isObjV x || jarrHasObj tl

/-- One iteration of the `for timing in soundTimings` loop; the state is the
Python local `se` (unassigned ↦ `none`) and the names gathered so far. -/
def soundTimingStep (se : Option JVal) (acc : List JVal) (timing : JVal) :
    Except PyErr (Option JVal × List JVal) :=
  match timing with
  | .obj fs =>
      match jobjGet fs "se" with
      | none => .error .keyError
      | some se_data =>
          match se_data with
          | .obj fs2 =>
              match jobjGet fs2 "name" with
              | none => .error .keyError
              | some v => .ok (some v, acc ++ [v])
          | _ => .error .typeError
  | _ =>
      match se with
      | none => .error .unboundLocal
      | some seV =>
          if isStrV seV then .ok (se, acc ++ [seV])
          else
            match timing with
            | .arr xs =>
                if jarrHasObj xs then .error .attributeError
                else .ok (se, acc)
            | _ => .ok (se, acc)

/-- The whole `soundTimings` loop, threading `se` across iterations exactly
as the function-scoped Python local does. -/
def runSoundTimings : JArr → Option JVal → List JVal →
    Except PyErr (List JVal)
  | .nil, _, acc => .ok acc
  | .cons t tl, se, acc =>
      match soundTimingStep se acc t with
      | .error e => .error e
      | .ok (se2, acc2) => runSoundTimings tl se2 acc2

/-! ## The orchestrator (`find_unused_files`, lines 313-610)

The directory is untouched during (and between) runs, so every file-system
read the function performs is a pure function of the directory; those reads
are gathered into an environment `Env`.  The set-manipulating logic that
consumes them is translated from the source.  The mutable module-level
sets (`used_files`, `unused_files`, `code_files`, `animations`) and the
function-scoped loop variable `file` (read again, stale, at line 603) form
the state `St` threaded through the phases; the state persists across
calls, as the globals do. -/

structure Env where
  /-- The root directory string passed to the function. -/
  dir : String
  /-- Result of `os.walk(directory)`: each subdirectory with its files. -/
  walk : List (String × List String)
  /-- Result of `os.walk(os.path.join(directory, 'data'))`. -/
  dataWalk : List (String × List String)
  /-- Whether `js/plugins.js` exists. -/
  pluginsExists : Bool
  /-- Outcome of parsing the `[` .. `]` span of `plugins.js`: the plugin
  names on success, `none` when the caught parse error was raised. -/
  pluginsParse : Option (List String)
  /-- The quoted `*.js`/`*.json` references the regular expression finds in
  `main.js`. -/
  mainFiles : List String
  /-- Whether the literal `effekseerWasmUrl` occurs in `main.js`. -/
  mainHasEffekseer : Bool
  /-- The animation ids `get_animation_ids` extracts from `plugins.js`. -/
  pluginAnimIds : List Int
  /-- Per structured-data file: the animation ids its records contribute
  (the per-file loop is `collectAnimIds`; a file whose cached parse failed
  contributes nothing, the per-file `except` swallowing the error). -/
  collectIdsOf : String → List Int
  /-- Per map file: the `tilesetNames` list of the tileset record matching
  its `tilesetId` (`[]` when the id or record is missing or the read
  failed). -/
  tilesetNamesOf : String → List String
  /-- Whether `get_content_from_file` succeeds on a code file (a failure is
  caught per file and skips it). -/
  readable : String → Bool
  /-- The null-stripped latin-1 decoded content of a file. -/
  contentOf : String → String
  /-- Whether `Animations.json` holds a record with the given id. -/
  animExists : Int → Bool
  /-- `animations_lookup`: the `(effectName, id)` pairs of
  `load_animations_json`. -/
  lookup : List (String × Int)
  /-- Per animation id: the sound names its record's `soundTimings` yield
  (canonical iteration of the Python `sound_files` set). -/
  soundsOf : Int → List String
  /-- Whether `extract_png_filenames` succeeds on a container file. -/
  containerReadable : String → Bool
  /-- The merged, sorted, decoded string carvings of a container file
  (`sorted(set(ascii_strings + utf16_strings))`); the model applies the
  final `.png` filter itself. -/
  carvedOf : String → List String

structure St where
  used : List String
  unused : List String
  code : List String
  anims : List Int
  /-- The function-scoped Python local `file` (`none` = never assigned). -/
  fileVar : Option String

/-- The module-level state at import time. -/
def initSt : St := ⟨[], [], [], [], none⟩

/-! ### Phase 1 — seed (lines 344-361) -/

/-- The walk entries that survive `if 'DatabaseCleanUpTool' in subdir:
continue`. -/
def walkIncluded (env : Env) : List (String × List String) :=
  env.walk.filter (fun e => !(strHas e.1 "DatabaseCleanUpTool"))

/-- Every filename the seed loop binds to `file`, in walk order. -/
def walkFileList (env : Env) : List String :=
  (walkIncluded env).foldr (fun e acc => e.2 ++ acc) []

/-- The last binding a loop leaves in a variable (`none` start = unbound). -/
def lastOpt (l : List String) (init : Option String) : Option String :=
  l.foldl (fun _ x => some x) init

/-- Paths of files directly inside the root directory (`subdir ==
directory`), which the seed marks used. -/
def rootFiles (env : Env) : List String :=
  (walkIncluded env).foldr
    (fun e acc =>
      (if e.1 = env.dir then e.2.map (fun f => pjoin2 e.1 f) else []) ++ acc)
    []

/-- Paths of the non-root files that enter `unused_files` (everything not
ending in `rmmzsave`). -/
def seedCandidates (env : Env) : List String :=
  (walkIncluded env).foldr
    (fun e acc =>
      (if e.1 = env.dir then []
       else (e.2.filter (fun f => !strEnds f "rmmzsave")).map
         (fun f => pjoin2 e.1 f)) ++ acc)
    []

def phaseSeed (env : Env) (s : St) : St :=
  { s with
    used := saddAll (rootFiles env) s.used,
    unused := saddAll (seedCandidates env) s.unused,
    fileVar := lastOpt (walkFileList env) s.fileVar }

/-! ### Phase 2 — plugin resolution (lines 364-380) -/

/-- `used_plugins` as computed by `get_used_plugins(directory)`. -/
def usedPluginsList (env : Env) : List String :=
  get_used_plugins env.pluginsExists env.pluginsParse env.mainFiles

/-- `os.path.join(directory, 'js', plugin_name).replace("\\", "/")` for each
entry. -/
def pluginPaths (env : Env) : List String :=
  (usedPluginsList env).map (fun n => pjoin3 env.dir "js" n)

def phasePlugins (env : Env) (s : St) : St :=
  { s with
    code := saddAll (pluginPaths env) s.code,
    used := saddAll (pluginPaths env) s.used,
    unused := eraseAll (pluginPaths env) s.unused }

/-! ### Phase 3 — data-directory walk (lines 383-398) -/

/-- Every filename the data walk binds to `file`. -/
def dataWalkFileList (env : Env) : List String :=
  env.dataWalk.foldr (fun e acc => e.2 ++ acc) []

/-- The `.js`/`.json` paths found under `data/`. -/
def dataCodePaths (env : Env) : List String :=
  env.dataWalk.foldr
    (fun e acc =>
      (e.2.filter (fun f => strEnds f ".js" || strEnds f ".json")).map
        (fun f => pjoin2 e.1 f) ++ acc)
    []

def phaseDataWalk (env : Env) (s : St) : St :=
  { s with
    code := saddAll (dataCodePaths env) s.code,
    used := saddAll (dataCodePaths env) s.used,
    unused := eraseAll (dataCodePaths env) s.unused,
    fileVar := lastOpt (dataWalkFileList env) s.fileVar }

/-! ### Phase 4 — `effekseerWasmUrl` (lines 403-413) -/

def phaseEffekseer (env : Env) (s : St) : St :=
  if env.mainHasEffekseer then
    { s with
      used := sadd "effekseerWasmUrl" s.used,
      unused := s.unused.erase "effekseerWasmUrl" }
  else s

/-! ### Phase 5 — animation-id collection (lines 418-430) -/

def phaseAnimCollect (env : Env) (s : St) : St :=
  { s with
    anims :=
      unionFold
        (fun cf => if strEnds cf ".json" then env.collectIdsOf cf else [])
        s.code s.anims }

/-! ### Phase 6 — animation ids from `plugins.js` (lines 434-437) -/

def phasePluginAnims (env : Env) (s : St) : St :=
  if env.pluginsExists then
    { s with anims := saddAll env.pluginAnimIds s.anims }
  else s

/-! ### Phase 7 — tileset resolution (lines 440-481)

The map loop accumulates `used_tilesets`; the add loop then joins each name
(including an empty one — the empty-name check at line 475 comes *after*
the `used_files.add`) into `img/tilesets/<name>.png`. -/

/-- The gate of the map loop: a `.json` code file whose path contains
`Map` but not `MapInfo`. -/
def isMapFile (cf : String) : Bool :=
  strEnds cf ".json" && strHas cf "Map" && !strHas cf "MapInfo"

/-- The `used_tilesets` set after the map loop. -/
def usedTilesetNames (env : Env) (code : List String) : List String :=
  unionFold (fun cf => if isMapFile cf then env.tilesetNamesOf cf else [])
    code []

/-- The joined tileset image paths. -/
def tilesetPngs (env : Env) (code : List String) : List String :=
  (usedTilesetNames env code).map
    (fun tileset_name =>
      pjoin4 env.dir "img" "tilesets" (tileset_name ++ ".png"))

def phaseTilesets (env : Env) (s : St) : St :=
  { s with
    used := saddAll (tilesetPngs env s.code) s.used,
    unused := eraseAll (tilesetPngs env s.code) s.unused }

/-! ### Phase 8 — generic reference sweep (lines 484-517) -/

/-- Sweep state: the pending additions to `used_files` (nothing in the loop
reads `used_files`, so they are gathered and merged at the end), the
current `unused_files`, and the loop variable `file`. -/
structure Sw where
  adds : List String
  unused : List String
  fv : Option String

/-- Body of `for i, file in enumerate(unused_files.copy())` for one
candidate. -/
def sweepStep (env : Env) (cf : String) (a : Sw) (target : String) : Sw :=
  let a := { a with fv := some target }
  if pyTruthy (search_content_for_file (env.contentOf cf) cf target) then
    let a := { a with
      adds := sadd target a.adds,
      unused := a.unused.erase target }
    if strEnds target ".pak" then
      { a with
        adds := sadd (target ++ ".info") a.adds,
        unused := a.unused.erase (target ++ ".info") }
    else a
  else a

/-- One code file's scan: the candidate list is the frozen copy of
`unused_files` taken at the start of the scan; an unreadable file is
skipped by the per-file `except`. -/
def sweepFile (env : Env) (a : Sw) (cf : String) : Sw :=
  if env.readable cf then a.unused.foldl (sweepStep env cf) a
  else a

def sweepCore (env : Env) (code unused0 : List String)
    (fv0 : Option String) : Sw :=
  code.foldl (sweepFile env) ⟨[], unused0, fv0⟩

def phaseSweep (env : Env) (s : St) : St :=
  let r := sweepCore env s.code s.unused s.fileVar
  { s with
    used := saddAll r.adds s.used,
    unused := r.unused,
    fileVar := r.fv }

/-! ### Phase 9 — animation resolution (lines 521-584) -/

/-- Accumulator for phases that add to `used_files` and erase from
`unused_files` without reading `used_files`. -/
structure Ar where
  adds : List String
  unused : List String

/-- Body of the loop over the collected animation ids: a missing record is
skipped; otherwise the first matching `(effectName, id)` lookup entry marks
the effect container used, and the record's sound names mark audio files
used (the `break` stops after that first entry). -/
def animStep (env : Env) (a : Ar) (animation_id : Int) : Ar :=
  if env.animExists animation_id then
    match env.lookup.find? (fun p => p.2 == animation_id) with
    | none => a
    | some p =>
        let effect_file := pjoin3 env.dir "effects" (p.1 ++ ".efkefc")
        let a : Ar :=
          ⟨sadd effect_file a.adds, a.unused.erase effect_file⟩
        (env.soundsOf animation_id).foldl
          (fun (a : Ar) sound_file =>
            let audio_file :=
              pjoin4 env.dir "audio" "se" (sound_file ++ ".ogg")
            ⟨sadd audio_file a.adds, a.unused.erase audio_file⟩)
          a
  else a

def phaseAnimResolve (env : Env) (s : St) : St :=
  let r := s.anims.foldl (animStep env) ⟨[], s.unused⟩
  { s with used := saddAll r.adds s.used, unused := r.unused }

/-! ### Phase 10 — container image resolution (lines 589-607)

For each used container, the extracted `.png` names are joined under
`effects/`; a name still unused is added to `used_files`, but the removal
from `unused_files` is guarded by `if file in unused_files:` — the *stale*
sweep variable — so the removal is skipped whenever that stale path is no
longer unused, and when `file` was never bound the `UnboundLocalError` is
caught by the per-container `except`, abandoning the container's remaining
names. -/

/-- The filtered name list of `extract_png_filenames` (line 309). -/
def containerPngs (env : Env) (effect_file : String) : List String :=
  (env.carvedOf effect_file).filter
    (fun png => strEnds (lowerStr png) ".png")

/-- The loop over one container's extracted names: on a hit the path is
added to the pending used-additions; the guarded removal erases `full_path`
only when the stale `file` value is still unused; an unbound `file`
(`fv = none`) raises, which the per-container handler turns into
abandoning the remaining names. -/
def contGo (env : Env) (fv : Option String) : List String → Ar → Ar
  | [], a => a
  | png :: rest, a =>
      let full_path := pjoin2 (pjoin2 env.dir "effects") png
      if full_path ∈ a.unused then
        match fv with
        | none => ⟨sadd full_path a.adds, a.unused⟩
        | some f =>
            contGo env fv rest
              (if f ∈ a.unused then
                ⟨sadd full_path a.adds, a.unused.erase full_path⟩
               else ⟨sadd full_path a.adds, a.unused⟩)
      else contGo env fv rest a

/-- One container's processing (unreadable containers are skipped by the
per-container `except`). -/
def contFile (env : Env) (fv : Option String) (a : Ar)
    (effect_file : String) : Ar :=
  if env.containerReadable effect_file then
    contGo env fv (containerPngs env effect_file) a
  else a

def phaseContainers (env : Env) (s : St) : St :=
  let containers := s.used.filter (fun u => strEnds u ".efkefc")
  let r := containers.foldl (contFile env s.fileVar) ⟨[], s.unused⟩
  { s with used := saddAll r.adds s.used, unused := r.unused }

/-! ### The whole pipeline -/

/-- The phases of `find_unused_files`, in source order, acting on the
module-level state. -/
def runPipeline (env : Env) (s : St) : St :=
  phaseContainers env
    (phaseAnimResolve env
      (phaseSweep env
        (phaseTilesets env
          (phasePluginAnims env
            (phaseAnimCollect env
              (phaseEffekseer env
                (phaseDataWalk env
                  (phasePlugins env
                    (phaseSeed env s)))))))))

/-- `find_unused_files`: the returned `list(sorted(unused_files))` and the
module-level state left behind. -/
def sortedSet {α : Type} [LinearOrder α] [BEq α] [LawfulBEq α]
    [LtbOrder α] (l : List α) : List α :=
  saddAll l []

def find_unused_files (env : Env) (s : St) : List String × St :=
  let t := runPipeline env s
  (sortedSet t.unused, t)

/-! ## Concrete test directories -/

/-- A small project: a root file, an effect container `z.efkefc` referenced
by animation id 1 from `data/Items.json`, and an image `A.png` carved out
of the container.  Nothing references `A.png` textually. -/
def env1 : Env where
  dir := "d"
  walk := [("d", ["game.exe"]), ("d/effects", ["z.efkefc", "A.png"]),
           ("d/data", ["Items.json"])]
  dataWalk := [("d/data", ["Items.json"])]
  pluginsExists := false
  pluginsParse := none
  mainFiles := []
  mainHasEffekseer := false
  pluginAnimIds := []
  collectIdsOf := fun f => if f = "d/data/Items.json" then [1] else []
  tilesetNamesOf := fun _ => []
  readable := fun _ => true
  contentOf := fun _ => ""
  animExists := fun a => a == 1
  lookup := [("z", 1)]
  soundsOf := fun _ => []
  containerReadable := fun _ => true
  carvedOf := fun f => if f = "d/effects/z.efkefc" then ["A.png"] else []

/-- A small project whose only map record resolves to a tileset record with
the single tileset name `""`. -/
def env2 : Env where
  dir := "d"
  walk := [("d", ["game.exe"]), ("d/data", ["Map1.json"])]
  dataWalk := [("d/data", ["Map1.json"])]
  pluginsExists := false
  pluginsParse := none
  mainFiles := []
  mainHasEffekseer := false
  pluginAnimIds := []
  collectIdsOf := fun _ => []
  tilesetNamesOf := fun f => if f = "d/data/Map1.json" then [""] else []
  readable := fun _ => true
  contentOf := fun _ => ""
  animExists := fun _ => false
  lookup := []
  soundsOf := fun _ => []
  containerReadable := fun _ => true
  carvedOf := fun _ => []



/-! ## Claim theorems -/

/-- C1: the claim asserts that the terminal used/unused partition is
disjoint.  The code violates it: in phase 10 the removal from
`unused_files` is guarded by the stale sweep variable (`if file in
unused_files` at line 603 instead of `full_path`), so on `env1` the
container-referenced image `d/effects/A.png` is added to `used_files` but
never removed from `unused_files`: the returned unused list is exactly
`[d/effects/A.png]` while that same path is in the terminal used set. -/
theorem terminal_partition_not_disjoint :
    (find_unused_files env1 initSt).1 = ["d/effects/A.png"] ∧
    "d/effects/A.png" ∈ (find_unused_files env1 initSt).2.used := by
  constructor <;> decide

/-- C2: the claim asserts an empty tileset name is skipped and never joined
into `img/tilesets/.png`.  The code adds the joined path to `used_files`
*before* the empty-name check (which only guards the provenance record), so
on `env2`, whose only map resolves to the tileset name list `[""]`, the
fabricated path `d/img/tilesets/.png` is in the used set. -/
theorem empty_tileset_name_joined :
    pjoin4 env2.dir "img" "tilesets" ("" ++ ".png") = "d/img/tilesets/.png" ∧
    "d/img/tilesets/.png" ∈ (find_unused_files env2 initSt).2.used := by
  constructor <;> decide

/-- C3 (counterexample): the claim asserts every `animationId` occurrence
of a record is collected.  In a record with occurrences `5` and `7` (in
depth-first order), only the first is collected: `extract_key_value`
returns after one hit. -/
theorem animation_collection_misses_second_occurrence :
    occKV
        (JVal.obj (.cons "a" (.obj (.cons "animationId" (.num 5) .nil))
          (.cons "b" (.obj (.cons "animationId" (.num 7) .nil)) .nil)))
        "animationId" = [JVal.num 5, JVal.num 7] ∧
    collectAnimIds
        (.cons (JVal.obj (.cons "a" (.obj (.cons "animationId" (.num 5) .nil))
          (.cons "b" (.obj (.cons "animationId" (.num 7) .nil)) .nil))) .nil)
      = [JVal.num 5] ∧
    JVal.num 7 ∉ collectAnimIds
        (.cons (JVal.obj (.cons "a" (.obj (.cons "animationId" (.num 5) .nil))
          (.cons "b" (.obj (.cons "animationId" (.num 7) .nil)) .nil))) .nil) := by
  refine ⟨rfl, rfl, ?_⟩
  intro hmem
  rw [show collectAnimIds
        (.cons (JVal.obj (.cons "a" (.obj (.cons "animationId" (.num 5) .nil))
          (.cons "b" (.obj (.cons "animationId" (.num 7) .nil)) .nil))) .nil)
      = [JVal.num 5] from rfl] at hmem
  simp only [List.mem_singleton] at hmem
  exact absurd (JVal.num.inj hmem) (by decide)

/-- C3 (amended): per top-level record of a structured-data file, the
collection loop adds exactly the record's *first* `animationId` occurrence
in depth-first order (the value `extract_key_value` returns), provided that
value is truthy and is not the sentinel `-1`; later occurrences in the same
record contribute nothing. -/
theorem animation_collection_first_occurrence (items : JArr) (a : JVal) :
    a ∈ collectAnimIds items ↔
      ∃ item ∈ jarrList items,
        extract_key_value item "animationId" = a ∧ jTruthy a = true ∧
        isNegOne a = false :=
  mem_collectAnimIds items a

/-- C4: the claim asserts the three documented sound-timing shapes are
extracted without raising and no shape aborts the run.  The code, whose
protecting `try`/`except` is commented out, raises `UnboundLocalError` on a
bare scalar first entry (`se` is read before any assignment), and
`AttributeError` on a nested list containing an object (`timing.get('se')`
is called on the *list*), so both a documented scalar entry and a
documented nested-list entry abort the run. -/
theorem sound_timings_raise_on_documented_shapes :
    runSoundTimings (.cons (.num 3) .nil) none [] =
      .error .unboundLocal ∧
    runSoundTimings
        (.cons (.arr (.cons (.obj (.cons "se"
          (.obj (.cons "name" (.str "Boom") .nil)) .nil)) .nil)) .nil)
        (some (.num 0)) [] =
      .error .attributeError := ⟨rfl, rfl⟩

/-- C5: for a non-container source, the matcher returns `True` exactly when
one of the four substrings occurs in the content: the extension-stripped
stem in double quotes, the stem preceded by `/`, the stem followed by `\`,
or the full base filename. -/
theorem matcher_four_patterns (content source_file target_file : String)
    (h : strEnds source_file ".efkefc" = false) :
    search_content_for_file content source_file target_file = some true ↔
      (strHas content
          ("\"" ++ stemOf (basenameStr target_file) ++ "\"") = true ∨
       strHas content ("/" ++ stemOf (basenameStr target_file)) = true ∨
       strHas content (stemOf (basenameStr target_file) ++ "\\") = true ∨
       strHas content (basenameStr target_file) = true) := by
  have hb : ∀ b : Bool,
      ((if b = true then some true else some false) = some true) ↔
        b = true := by
    intro b; cases b <;> simp
  simp only [search_content_for_file, h, Bool.false_eq_true, if_false, hb,
    List.any_cons, List.any_nil, Bool.or_eq_true, Bool.or_false]
  split <;> rename_i hP <;> simp [hP]

/-- C5 (witness): instantiation at a concrete source and a content that
holds the quoted stem. -/
theorem matcher_four_patterns_witness :
    strEnds "a.js" ".efkefc" = false ∧
    (search_content_for_file "x \"b\" y" "a.js" "img/b.png" = some true ↔
      (strHas "x \"b\" y"
          ("\"" ++ stemOf (basenameStr "img/b.png") ++ "\"") = true ∨
       strHas "x \"b\" y" ("/" ++ stemOf (basenameStr "img/b.png")) = true ∨
       strHas "x \"b\" y" (stemOf (basenameStr "img/b.png") ++ "\\") = true ∨
       strHas "x \"b\" y" (basenameStr "img/b.png") = true)) :=
  ⟨by decide, matcher_four_patterns "x \"b\" y" "a.js" "img/b.png" (by decide)⟩

/-- C6: for a container (`.efkefc`) source the matcher is truthy exactly
when the target is a `.png` whose base filename occurs in the extracted
content; a non-`.png` target yields `False`, and a `.png` target whose
basename is absent yields the falsy `None` (the function falls off the
end). -/
theorem container_matcher (content source_file target_file : String)
    (h : strEnds source_file ".efkefc" = true) :
    (pyTruthy (search_content_for_file content source_file target_file)
        = true ↔
      strEnds target_file ".png" = true ∧
      strHas content (basenameStr target_file) = true) ∧
    (strEnds target_file ".png" = false →
      search_content_for_file content source_file target_file
        = some false) ∧
    (strEnds target_file ".png" = true →
      strHas content (basenameStr target_file) = false →
      search_content_for_file content source_file target_file = none) := by
  by_cases hp : strEnds target_file ".png" = true
  · by_cases hh : strHas content (basenameStr target_file) = true
    · simp [search_content_for_file, h, hp, hh, pyTruthy]
    · simp only [Bool.not_eq_true] at hh
      simp [search_content_for_file, h, hp, hh, pyTruthy]
  · simp only [Bool.not_eq_true] at hp
    simp [search_content_for_file, h, hp, pyTruthy]

/-- C6 (witness): instantiation at a container source, with a matching
image target. -/
theorem container_matcher_witness :
    strEnds "fx.efkefc" ".efkefc" = true ∧
    (pyTruthy (search_content_for_file "..Spark.png.." "fx.efkefc"
        "effects/Spark.png") = true ↔
      strEnds "effects/Spark.png" ".png" = true ∧
      strHas "..Spark.png.." (basenameStr "effects/Spark.png") = true) :=
  ⟨by decide,
   (container_matcher "..Spark.png.." "fx.efkefc" "effects/Spark.png"
      (by decide)).1⟩

/-- C7 (counterexample): the claim asserts that after a manifest parse
failure the resolver's result contains only the two unconditional entries.
With a parse failure and a `main.js` that references `foo.js`, the result
also contains `foo.js`: the bootstrap-script scan runs unconditionally. -/
theorem plugin_fallback_not_only_two :
    get_used_plugins true none ["foo.js"] ≠ ["plugins.js", "main.js"] := by
  decide

/-- C7 (amended): after a manifest parse failure (the caught
`ValueError`/`JSONDecodeError`), no `plugins/<name>.js` entry is produced
from the manifest, and the result is exactly the two unconditional entries
followed by the bootstrap-script references (with a leading `js/`
stripped). -/
theorem plugin_fallback_entries (pluginsExists : Bool)
    (mainFiles : List String) :
    get_used_plugins pluginsExists none mainFiles =
      "plugins.js" :: "main.js" :: mainFiles.map stripJsSlash := by
  cases pluginsExists <;> rfl

/-- C9: the sequence of unused paths returned by `find_unused_files` is
sorted (the canonical, lexicographic order on strings), for every
directory and every initial module state. -/
theorem returned_unused_list_sorted (env : Env) (s : St) :
    List.Sorted (· ≤ ·) (find_unused_files env s).1 := by
  show List.Sorted (· ≤ ·) (sortedSet (runPipeline env s).unused)
  have h : canonL (sortedSet (runPipeline env s).unused) :=
    canon_saddAll _ (by simp [canonL])
  exact h.imp le_of_lt

/-- C10 (counterexample): the claim asserts the value of the *first*
depth-first occurrence is returned.  When that first occurrence carries the
value `null` (Python `None`), the recursion treats it as "not found" and a
later occurrence is returned instead. -/
theorem extract_skips_null_first_occurrence :
    occKV (JVal.obj (.cons "a" (.obj (.cons "k" .null .nil))
        (.cons "k" (.num 2) .nil))) "k" = [JVal.null, JVal.num 2] ∧
    extract_key_value (JVal.obj (.cons "a" (.obj (.cons "k" .null .nil))
        (.cons "k" (.num 2) .nil))) "k" = JVal.num 2 ∧
    JVal.num 2 ≠ JVal.null :=
  ⟨rfl, rfl, fun h => JVal.noConfusion h⟩

/-- C10 (amended): when no occurrence of the key carries `null`,
`extract_key_value` returns the value of the first occurrence in
depth-first order — dictionary entries checked before recursing into them,
list items in order — and `None` when the key is absent; at most one value
is ever returned. -/
theorem extract_first_occurrence (d : JVal) (key : String)
    (h : ∀ v ∈ occKV d key, isNull v = false) :
    extract_key_value d key = (occKV d key).headD .null :=
  extract_eq_headD_val d key h

/-- C10 (witness): instantiation at a one-entry dictionary. -/
theorem extract_first_occurrence_witness :
    (∀ v ∈ occKV (JVal.obj (.cons "k" (.num 3) .nil)) "k",
        isNull v = false) ∧
    extract_key_value (JVal.obj (.cons "k" (.num 3) .nil)) "k" =
      (occKV (JVal.obj (.cons "k" (.num 3) .nil)) "k").headD .null := by
  have hp : ∀ v ∈ occKV (JVal.obj (.cons "k" (.num 3) .nil)) "k",
      isNull v = false := by
    intro v hv
    rw [show occKV (JVal.obj (.cons "k" (.num 3) .nil)) "k"
        = [JVal.num 3] from rfl] at hv
    simp only [List.mem_singleton] at hv
    subst hv
    rfl
  exact ⟨hp, extract_first_occurrence _ _ hp⟩

/-! ## Infrastructure for the idempotence proof (C8) -/

theorem lastOpt_ne_nil {l : List String} (h : l ≠ []) (x y : Option String) :
    lastOpt l x = lastOpt l y := by
  cases l with
  | nil => exact absurd rfl h
  | cons a t => rfl

theorem phaseSeed_used (env : Env) (s : St) :
    (phaseSeed env s).used = saddAll (rootFiles env) s.used := rfl
theorem phaseSeed_unused (env : Env) (s : St) :
    (phaseSeed env s).unused = saddAll (seedCandidates env) s.unused := rfl
theorem phaseSeed_code (env : Env) (s : St) :
    (phaseSeed env s).code = s.code := rfl
theorem phaseSeed_anims (env : Env) (s : St) :
    (phaseSeed env s).anims = s.anims := rfl
theorem phaseSeed_fileVar (env : Env) (s : St) :
    (phaseSeed env s).fileVar = lastOpt (walkFileList env) s.fileVar := rfl

theorem phasePlugins_used (env : Env) (s : St) :
    (phasePlugins env s).used = saddAll (pluginPaths env) s.used := rfl
theorem phasePlugins_unused (env : Env) (s : St) :
    (phasePlugins env s).unused = eraseAll (pluginPaths env) s.unused := rfl
theorem phasePlugins_code (env : Env) (s : St) :
    (phasePlugins env s).code = saddAll (pluginPaths env) s.code := rfl
theorem phasePlugins_anims (env : Env) (s : St) :
    (phasePlugins env s).anims = s.anims := rfl
theorem phasePlugins_fileVar (env : Env) (s : St) :
    (phasePlugins env s).fileVar = s.fileVar := rfl

theorem phaseDataWalk_used (env : Env) (s : St) :
    (phaseDataWalk env s).used = saddAll (dataCodePaths env) s.used := rfl
theorem phaseDataWalk_unused (env : Env) (s : St) :
    (phaseDataWalk env s).unused = eraseAll (dataCodePaths env) s.unused :=
  rfl
theorem phaseDataWalk_code (env : Env) (s : St) :
    (phaseDataWalk env s).code = saddAll (dataCodePaths env) s.code := rfl
theorem phaseDataWalk_anims (env : Env) (s : St) :
    (phaseDataWalk env s).anims = s.anims := rfl
theorem phaseDataWalk_fileVar (env : Env) (s : St) :
    (phaseDataWalk env s).fileVar =
      lastOpt (dataWalkFileList env) s.fileVar := rfl

theorem phaseEffekseer_used (env : Env) (s : St) :
    (phaseEffekseer env s).used =
      if env.mainHasEffekseer then sadd "effekseerWasmUrl" s.used
      else s.used := by
  by_cases h : env.mainHasEffekseer <;> simp [phaseEffekseer, h]
theorem phaseEffekseer_unused (env : Env) (s : St) :
    (phaseEffekseer env s).unused =
      if env.mainHasEffekseer then s.unused.erase "effekseerWasmUrl"
      else s.unused := by
  by_cases h : env.mainHasEffekseer <;> simp [phaseEffekseer, h]
theorem phaseEffekseer_code (env : Env) (s : St) :
    (phaseEffekseer env s).code = s.code := by
  by_cases h : env.mainHasEffekseer <;> simp [phaseEffekseer, h]
theorem phaseEffekseer_anims (env : Env) (s : St) :
    (phaseEffekseer env s).anims = s.anims := by
  by_cases h : env.mainHasEffekseer <;> simp [phaseEffekseer, h]
theorem phaseEffekseer_fileVar (env : Env) (s : St) :
    (phaseEffekseer env s).fileVar = s.fileVar := by
  by_cases h : env.mainHasEffekseer <;> simp [phaseEffekseer, h]

theorem phaseAnimCollect_used (env : Env) (s : St) :
    (phaseAnimCollect env s).used = s.used := rfl
theorem phaseAnimCollect_unused (env : Env) (s : St) :
    (phaseAnimCollect env s).unused = s.unused := rfl
theorem phaseAnimCollect_code (env : Env) (s : St) :
    (phaseAnimCollect env s).code = s.code := rfl
theorem phaseAnimCollect_anims (env : Env) (s : St) :
    (phaseAnimCollect env s).anims =
      unionFold
        (fun cf => if strEnds cf ".json" then env.collectIdsOf cf else [])
        s.code s.anims := rfl
theorem phaseAnimCollect_fileVar (env : Env) (s : St) :
    (phaseAnimCollect env s).fileVar = s.fileVar := rfl

theorem phasePluginAnims_used (env : Env) (s : St) :
    (phasePluginAnims env s).used = s.used := by
  by_cases h : env.pluginsExists <;> simp [phasePluginAnims, h]
theorem phasePluginAnims_unused (env : Env) (s : St) :
    (phasePluginAnims env s).unused = s.unused := by
  by_cases h : env.pluginsExists <;> simp [phasePluginAnims, h]
theorem phasePluginAnims_code (env : Env) (s : St) :
    (phasePluginAnims env s).code = s.code := by
  by_cases h : env.pluginsExists <;> simp [phasePluginAnims, h]
theorem phasePluginAnims_anims (env : Env) (s : St) :
    (phasePluginAnims env s).anims =
      if env.pluginsExists then saddAll env.pluginAnimIds s.anims
      else s.anims := by
  by_cases h : env.pluginsExists <;> simp [phasePluginAnims, h]
theorem phasePluginAnims_fileVar (env : Env) (s : St) :
    (phasePluginAnims env s).fileVar = s.fileVar := by
  by_cases h : env.pluginsExists <;> simp [phasePluginAnims, h]

theorem phaseTilesets_used (env : Env) (s : St) :
    (phaseTilesets env s).used = saddAll (tilesetPngs env s.code) s.used :=
  rfl
theorem phaseTilesets_unused (env : Env) (s : St) :
    (phaseTilesets env s).unused =
      eraseAll (tilesetPngs env s.code) s.unused := rfl
theorem phaseTilesets_code (env : Env) (s : St) :
    (phaseTilesets env s).code = s.code := rfl
theorem phaseTilesets_anims (env : Env) (s : St) :
    (phaseTilesets env s).anims = s.anims := rfl
theorem phaseTilesets_fileVar (env : Env) (s : St) :
    (phaseTilesets env s).fileVar = s.fileVar := rfl

theorem phaseSweep_used (env : Env) (s : St) :
    (phaseSweep env s).used =
      saddAll (sweepCore env s.code s.unused s.fileVar).adds s.used := rfl
theorem phaseSweep_unused (env : Env) (s : St) :
    (phaseSweep env s).unused =
      (sweepCore env s.code s.unused s.fileVar).unused := rfl
theorem phaseSweep_code (env : Env) (s : St) :
    (phaseSweep env s).code = s.code := rfl
theorem phaseSweep_anims (env : Env) (s : St) :
    (phaseSweep env s).anims = s.anims := rfl
theorem phaseSweep_fileVar (env : Env) (s : St) :
    (phaseSweep env s).fileVar =
      (sweepCore env s.code s.unused s.fileVar).fv := rfl

theorem phaseAnimResolve_used (env : Env) (s : St) :
    (phaseAnimResolve env s).used =
      saddAll (s.anims.foldl (animStep env) ⟨[], s.unused⟩).adds s.used :=
  rfl
theorem phaseAnimResolve_unused (env : Env) (s : St) :
    (phaseAnimResolve env s).unused =
      (s.anims.foldl (animStep env) ⟨[], s.unused⟩).unused := rfl
theorem phaseAnimResolve_code (env : Env) (s : St) :
    (phaseAnimResolve env s).code = s.code := rfl
theorem phaseAnimResolve_anims (env : Env) (s : St) :
    (phaseAnimResolve env s).anims = s.anims := rfl
theorem phaseAnimResolve_fileVar (env : Env) (s : St) :
    (phaseAnimResolve env s).fileVar = s.fileVar := rfl

theorem phaseContainers_used (env : Env) (s : St) :
    (phaseContainers env s).used =
      saddAll
        ((s.used.filter (fun u => strEnds u ".efkefc")).foldl
          (contFile env s.fileVar) ⟨[], s.unused⟩).adds s.used := rfl
theorem phaseContainers_unused (env : Env) (s : St) :
    (phaseContainers env s).unused =
      ((s.used.filter (fun u => strEnds u ".efkefc")).foldl
        (contFile env s.fileVar) ⟨[], s.unused⟩).unused := rfl
theorem phaseContainers_code (env : Env) (s : St) :
    (phaseContainers env s).code = s.code := rfl
theorem phaseContainers_anims (env : Env) (s : St) :
    (phaseContainers env s).anims = s.anims := rfl
theorem phaseContainers_fileVar (env : Env) (s : St) :
    (phaseContainers env s).fileVar = s.fileVar := rfl

theorem foldSw_unused_sublist {β : Type} (f : Sw → β → Sw) (l : List β)
    (hf : ∀ a b, (f a b).unused.Sublist a.unused) :
    ∀ a : Sw, (l.foldl f a).unused.Sublist a.unused := by
  induction l with
  | nil => intro a; simp
  | cons x rest ih =>
      intro a
      exact (ih (f a x)).trans (hf a x)

theorem foldAr_unused_sublist {β : Type} (f : Ar → β → Ar) (l : List β)
    (hf : ∀ a b, (f a b).unused.Sublist a.unused) :
    ∀ a : Ar, (l.foldl f a).unused.Sublist a.unused := by
  induction l with
  | nil => intro a; simp
  | cons x rest ih =>
      intro a
      exact (ih (f a x)).trans (hf a x)

theorem sweepStep_unused_sublist (env : Env) (cf : String) (a : Sw)
    (t : String) : (sweepStep env cf a t).unused.Sublist a.unused := by
  by_cases h : pyTruthy (search_content_for_file (env.contentOf cf) cf t)
      = true
  · by_cases hp : strEnds t ".pak" = true
    · simp only [sweepStep, h, hp, if_true]
      exact (List.erase_sublist _ _).trans (List.erase_sublist _ _)
    · have hp' : strEnds t ".pak" = false := by
        rw [← Bool.not_eq_true]; exact hp
      simp only [sweepStep, h, if_true, hp', Bool.false_eq_true, if_false]
      exact List.erase_sublist _ _
  · have h' : pyTruthy (search_content_for_file (env.contentOf cf) cf t)
        = false := by
      rw [← Bool.not_eq_true]; exact h
    simp only [sweepStep, h', Bool.false_eq_true, if_false]
    exact List.Sublist.refl _

theorem sweepFile_unused_sublist (env : Env) (a : Sw) (cf : String) :
    (sweepFile env a cf).unused.Sublist a.unused := by
  by_cases h : env.readable cf = true
  · simp only [sweepFile, h, if_true]
    exact foldSw_unused_sublist _ _ (sweepStep_unused_sublist env cf) a
  · have h' : env.readable cf = false := by rw [← Bool.not_eq_true]; exact h
    simp only [sweepFile, h', Bool.false_eq_true, if_false]
    exact List.Sublist.refl _

theorem sweepCore_unused_sublist (env : Env) (code unused0 : List String)
    (fv0 : Option String) :
    (sweepCore env code unused0 fv0).unused.Sublist unused0 :=
  foldSw_unused_sublist _ _ (fun a cf => sweepFile_unused_sublist env a cf)
    ⟨[], unused0, fv0⟩

theorem animStep_unused_sublist (env : Env) (a : Ar) (i : Int) :
    (animStep env a i).unused.Sublist a.unused := by
  by_cases h : env.animExists i = true
  · simp only [animStep, h, if_true]
    cases hf : env.lookup.find? (fun p => p.2 == i) with
    | none => exact List.Sublist.refl _
    | some p =>
        refine (foldAr_unused_sublist _ _ ?_ _).trans
          (List.erase_sublist _ _)
        intro b sf
        exact List.erase_sublist _ _
  · have h' : env.animExists i = false := by rw [← Bool.not_eq_true]; exact h
    simp only [animStep, h', Bool.false_eq_true, if_false]
    exact List.Sublist.refl _

theorem contGo_unused_sublist (env : Env) (fv : Option String) :
    ∀ (pngs : List String) (a : Ar),
      (contGo env fv pngs a).unused.Sublist a.unused
  | [], a => List.Sublist.refl _
  | png :: rest, a => by
      unfold contGo
      by_cases hm :
          pjoin2 (pjoin2 env.dir "effects") png ∈ a.unused
      · rw [if_pos hm]
        cases fv with
        | none => exact List.Sublist.refl _
        | some f =>
            show (contGo env (some f) rest
                (if f ∈ a.unused then
                  ⟨sadd (pjoin2 (pjoin2 env.dir "effects") png) a.adds,
                   a.unused.erase (pjoin2 (pjoin2 env.dir "effects") png)⟩
                 else
                  ⟨sadd (pjoin2 (pjoin2 env.dir "effects") png) a.adds,
                   a.unused⟩)).unused.Sublist a.unused
            by_cases hfm : f ∈ a.unused
            · rw [if_pos hfm]
              exact (contGo_unused_sublist env (some f) rest _).trans
                (List.erase_sublist _ _)
            · rw [if_neg hfm]
              exact contGo_unused_sublist env (some f) rest _
      · rw [if_neg hm]
        exact contGo_unused_sublist env fv rest a

theorem contFile_unused_sublist (env : Env) (fv : Option String) (a : Ar)
    (c : String) : (contFile env fv a c).unused.Sublist a.unused := by
  by_cases h : env.containerReadable c = true
  · simp only [contFile, h, if_true]
    exact contGo_unused_sublist env fv _ a
  · have h' : env.containerReadable c = false := by
      rw [← Bool.not_eq_true]; exact h
    simp only [contFile, h', Bool.false_eq_true, if_false]
    exact List.Sublist.refl _

/-- The four module-level sets are in canonical form. -/
def canonSt (s : St) : Prop :=
  canonL s.used ∧ canonL s.unused ∧ canonL s.code ∧ canonL s.anims

theorem canonSt_initSt : canonSt initSt :=
  ⟨List.sorted_nil, List.sorted_nil, List.sorted_nil, List.sorted_nil⟩

theorem canonSt_phaseSeed (env : Env) (s : St) (h : canonSt s) :
    canonSt (phaseSeed env s) :=
  ⟨canon_saddAll _ h.1, canon_saddAll _ h.2.1, h.2.2.1, h.2.2.2⟩

theorem canonSt_phasePlugins (env : Env) (s : St) (h : canonSt s) :
    canonSt (phasePlugins env s) :=
  ⟨canon_saddAll _ h.1, canon_eraseAll (pluginPaths env) h.2.1,
   canon_saddAll _ h.2.2.1, h.2.2.2⟩

theorem canonSt_phaseDataWalk (env : Env) (s : St) (h : canonSt s) :
    canonSt (phaseDataWalk env s) :=
  ⟨canon_saddAll _ h.1, canon_eraseAll (dataCodePaths env) h.2.1,
   canon_saddAll _ h.2.2.1, h.2.2.2⟩

theorem canonSt_phaseEffekseer (env : Env) (s : St) (h : canonSt s) :
    canonSt (phaseEffekseer env s) := by
  refine ⟨?_, ?_, ?_, ?_⟩
  · rw [phaseEffekseer_used]
    split
    · exact canon_sadd _ h.1
    · exact h.1
  · rw [phaseEffekseer_unused]
    split
    · exact List.Pairwise.sublist (List.erase_sublist _ _) h.2.1
    · exact h.2.1
  · rw [phaseEffekseer_code]; exact h.2.2.1
  · rw [phaseEffekseer_anims]; exact h.2.2.2

theorem canonSt_phaseAnimCollect (env : Env) (s : St) (h : canonSt s) :
    canonSt (phaseAnimCollect env s) :=
  ⟨h.1, h.2.1, h.2.2.1, canon_unionFold _ _ h.2.2.2⟩

theorem canonSt_phasePluginAnims (env : Env) (s : St) (h : canonSt s) :
    canonSt (phasePluginAnims env s) := by
  refine ⟨?_, ?_, ?_, ?_⟩
  · rw [phasePluginAnims_used]; exact h.1
  · rw [phasePluginAnims_unused]; exact h.2.1
  · rw [phasePluginAnims_code]; exact h.2.2.1
  · rw [phasePluginAnims_anims]
    split
    · exact canon_saddAll _ h.2.2.2
    · exact h.2.2.2

theorem canonSt_phaseTilesets (env : Env) (s : St) (h : canonSt s) :
    canonSt (phaseTilesets env s) :=
  ⟨canon_saddAll _ h.1, canon_eraseAll (tilesetPngs env s.code) h.2.1,
   h.2.2.1, h.2.2.2⟩

theorem canonSt_phaseSweep (env : Env) (s : St) (h : canonSt s) :
    canonSt (phaseSweep env s) :=
  ⟨canon_saddAll _ h.1,
   List.Pairwise.sublist (sweepCore_unused_sublist env s.code s.unused
     s.fileVar) h.2.1,
   h.2.2.1, h.2.2.2⟩

theorem canonSt_phaseAnimResolve (env : Env) (s : St) (h : canonSt s) :
    canonSt (phaseAnimResolve env s) :=
  ⟨canon_saddAll _ h.1,
   List.Pairwise.sublist
     (foldAr_unused_sublist _ _ (animStep_unused_sublist env) _) h.2.1,
   h.2.2.1, h.2.2.2⟩

theorem canonSt_phaseContainers (env : Env) (s : St) (h : canonSt s) :
    canonSt (phaseContainers env s) :=
  ⟨canon_saddAll _ h.1,
   List.Pairwise.sublist
     (foldAr_unused_sublist _ _ (contFile_unused_sublist env s.fileVar) _)
     h.2.1,
   h.2.2.1, h.2.2.2⟩

theorem canonSt_runPipeline (env : Env) (s : St) (h : canonSt s) :
    canonSt (runPipeline env s) :=
  canonSt_phaseContainers env _
    (canonSt_phaseAnimResolve env _
      (canonSt_phaseSweep env _
        (canonSt_phaseTilesets env _
          (canonSt_phasePluginAnims env _
            (canonSt_phaseAnimCollect env _
              (canonSt_phaseEffekseer env _
                (canonSt_phaseDataWalk env _
                  (canonSt_phasePlugins env _
                    (canonSt_phaseSeed env _ h)))))))))

theorem mem_saddAll_left {α : Type} [LinearOrder α] [BEq α] [LawfulBEq α]
    [LtbOrder α] {l s : List α} {x : α} (h : x ∈ l) : x ∈ saddAll l s :=
  (mem_saddAll l s x).mpr (Or.inl h)

theorem mem_saddAll_right {α : Type} [LinearOrder α] [BEq α] [LawfulBEq α]
    [LtbOrder α] {l s : List α} {x : α} (h : x ∈ s) : x ∈ saddAll l s :=
  (mem_saddAll l s x).mpr (Or.inr h)

theorem used_mono_phaseSeed (env : Env) (s : St) {x : String}
    (h : x ∈ s.used) : x ∈ (phaseSeed env s).used := mem_saddAll_right h

theorem used_mono_phasePlugins (env : Env) (s : St) {x : String}
    (h : x ∈ s.used) : x ∈ (phasePlugins env s).used := mem_saddAll_right h

theorem used_mono_phaseDataWalk (env : Env) (s : St) {x : String}
    (h : x ∈ s.used) : x ∈ (phaseDataWalk env s).used := mem_saddAll_right h

theorem used_mono_phaseEffekseer (env : Env) (s : St) {x : String}
    (h : x ∈ s.used) : x ∈ (phaseEffekseer env s).used := by
  rw [phaseEffekseer_used]
  split
  · exact (mem_sadd _ _ _).mpr (Or.inr h)
  · exact h

theorem used_mono_phaseAnimCollect (env : Env) (s : St) {x : String}
    (h : x ∈ s.used) : x ∈ (phaseAnimCollect env s).used := h

theorem used_mono_phasePluginAnims (env : Env) (s : St) {x : String}
    (h : x ∈ s.used) : x ∈ (phasePluginAnims env s).used := by
  rw [phasePluginAnims_used]; exact h

theorem used_mono_phaseTilesets (env : Env) (s : St) {x : String}
    (h : x ∈ s.used) : x ∈ (phaseTilesets env s).used := mem_saddAll_right h

theorem used_mono_phaseSweep (env : Env) (s : St) {x : String}
    (h : x ∈ s.used) : x ∈ (phaseSweep env s).used := mem_saddAll_right h

theorem used_mono_phaseAnimResolve (env : Env) (s : St) {x : String}
    (h : x ∈ s.used) : x ∈ (phaseAnimResolve env s).used :=
  mem_saddAll_right h

theorem used_mono_phaseContainers (env : Env) (s : St) {x : String}
    (h : x ∈ s.used) : x ∈ (phaseContainers env s).used :=
  mem_saddAll_right h

theorem unused_shrink_phasePlugins (env : Env) (s : St) {x : String}
    (h : x ∈ (phasePlugins env s).unused) : x ∈ s.unused :=
  (eraseAll_sublist (pluginPaths env) s.unused).subset h

theorem unused_shrink_phaseDataWalk (env : Env) (s : St) {x : String}
    (h : x ∈ (phaseDataWalk env s).unused) : x ∈ s.unused :=
  (eraseAll_sublist (dataCodePaths env) s.unused).subset h

theorem unused_shrink_phaseEffekseer (env : Env) (s : St) {x : String}
    (h : x ∈ (phaseEffekseer env s).unused) : x ∈ s.unused := by
  rw [phaseEffekseer_unused] at h
  revert h
  split
  · exact fun h => (List.erase_sublist _ _).subset h
  · exact id

theorem unused_shrink_phaseAnimCollect (env : Env) (s : St) {x : String}
    (h : x ∈ (phaseAnimCollect env s).unused) : x ∈ s.unused := h

theorem unused_shrink_phasePluginAnims (env : Env) (s : St) {x : String}
    (h : x ∈ (phasePluginAnims env s).unused) : x ∈ s.unused := by
  rw [phasePluginAnims_unused] at h; exact h

theorem unused_shrink_phaseTilesets (env : Env) (s : St) {x : String}
    (h : x ∈ (phaseTilesets env s).unused) : x ∈ s.unused :=
  (eraseAll_sublist (tilesetPngs env s.code) s.unused).subset h

theorem unused_shrink_phaseSweep (env : Env) (s : St) {x : String}
    (h : x ∈ (phaseSweep env s).unused) : x ∈ s.unused :=
  (sweepCore_unused_sublist env s.code s.unused s.fileVar).subset h

theorem unused_shrink_phaseAnimResolve (env : Env) (s : St) {x : String}
    (h : x ∈ (phaseAnimResolve env s).unused) : x ∈ s.unused :=
  (foldAr_unused_sublist _ _ (animStep_unused_sublist env) _).subset h

theorem unused_shrink_phaseContainers (env : Env) (s : St) {x : String}
    (h : x ∈ (phaseContainers env s).unused) : x ∈ s.unused :=
  (foldAr_unused_sublist _ _ (contFile_unused_sublist env s.fileVar)
    _).subset h

theorem contGo_adds_mem (env : Env) (fv : Option String) :
    ∀ (pngs : List String) (a : Ar) (x : String),
      x ∈ (contGo env fv pngs a).adds →
      x ∈ a.adds ∨
        ∃ p ∈ pngs, x = pjoin2 (pjoin2 env.dir "effects") p
  | [], a, x, hx => Or.inl hx
  | png :: rest, a, x, hx => by
      unfold contGo at hx
      by_cases hm : pjoin2 (pjoin2 env.dir "effects") png ∈ a.unused
      · rw [if_pos hm] at hx
        cases fv with
        | none =>
            rcases (mem_sadd _ _ _).mp hx with rfl | hx'
            · exact Or.inr ⟨png, by simp⟩
            · exact Or.inl hx'
        | some f =>
            have hx2 : x ∈ (contGo env (some f) rest
                (if f ∈ a.unused then
                  ⟨sadd (pjoin2 (pjoin2 env.dir "effects") png) a.adds,
                   a.unused.erase (pjoin2 (pjoin2 env.dir "effects") png)⟩
                 else
                  ⟨sadd (pjoin2 (pjoin2 env.dir "effects") png) a.adds,
                   a.unused⟩ : Ar)).adds := hx
            by_cases hf : f ∈ a.unused
            · rw [if_pos hf] at hx2
              rcases contGo_adds_mem env (some f) rest _ x hx2 with
                hx' | ⟨p, hp, rfl⟩
              · rcases (mem_sadd _ _ _).mp hx' with rfl | hx''
                · exact Or.inr ⟨png, by simp⟩
                · exact Or.inl hx''
              · exact Or.inr ⟨p, by simp [hp]⟩
            · rw [if_neg hf] at hx2
              rcases contGo_adds_mem env (some f) rest _ x hx2 with
                hx' | ⟨p, hp, rfl⟩
              · rcases (mem_sadd _ _ _).mp hx' with rfl | hx''
                · exact Or.inr ⟨png, by simp⟩
                · exact Or.inl hx''
              · exact Or.inr ⟨p, by simp [hp]⟩
      · rw [if_neg hm] at hx
        rcases contGo_adds_mem env fv rest a x hx with hx' | ⟨p, hp, rfl⟩
        · exact Or.inl hx'
        · exact Or.inr ⟨p, by simp [hp]⟩

theorem contFile_adds_mem (env : Env) (fv : Option String) (a : Ar)
    (c : String) (x : String) (hx : x ∈ (contFile env fv a c).adds) :
    x ∈ a.adds ∨
      ∃ p, strEnds (lowerStr p) ".png" = true ∧
        x = pjoin2 (pjoin2 env.dir "effects") p := by
  by_cases h : env.containerReadable c = true
  · rw [contFile, if_pos h] at hx
    rcases contGo_adds_mem env fv _ a x hx with hx' | ⟨p, hp, rfl⟩
    · exact Or.inl hx'
    · refine Or.inr ⟨p, ?_, rfl⟩
      exact (List.mem_filter.mp hp).2
  · have h' : env.containerReadable c = false := by
      rw [← Bool.not_eq_true]; exact h
    rw [contFile, h'] at hx
    simp only [Bool.false_eq_true, if_false] at hx
    exact Or.inl hx

theorem contFold_adds_mem (env : Env) (fv : Option String) :
    ∀ (cs : List String) (a : Ar) (x : String),
      x ∈ ((cs.foldl (contFile env fv) a).adds) →
      x ∈ a.adds ∨
        ∃ p, strEnds (lowerStr p) ".png" = true ∧
          x = pjoin2 (pjoin2 env.dir "effects") p
  | [], a, x, hx => Or.inl hx
  | c :: rest, a, x, hx => by
      rcases contFold_adds_mem env fv rest (contFile env fv a c) x hx with
        hx' | hpng
      · exact contFile_adds_mem env fv a c x hx'
      · exact Or.inr hpng

theorem filter_sadd_of_neg {α : Type} [LinearOrder α] [BEq α] [LawfulBEq α]
    [LtbOrder α] {p : α → Bool} {x : α} (hx : p x = false) :
    ∀ s : List α, (sadd x s).filter p = s.filter p := by
  intro s
  induction s with
  | nil => simp [sadd, hx]
  | cons y rest ih =>
      by_cases h1 : x = y
      · subst h1; simp [sadd]
      · by_cases h2 : x < y
        · simp only [sadd, beq_iff_eq, h1, (lb_iff x y).mpr h2, if_true,
            if_false, Bool.false_eq_true, List.filter_cons, hx]
        · simp only [sadd, beq_iff_eq, h1, lb_eq_false h2, if_false,
            Bool.false_eq_true, List.filter_cons, ih]

theorem filter_saddAll_of_neg {α : Type} [LinearOrder α] [BEq α]
    [LawfulBEq α] [LtbOrder α] {p : α → Bool} :
    ∀ (l : List α), (∀ x ∈ l, p x = false) →
      ∀ s : List α, (saddAll l s).filter p = s.filter p
  | [], _, s => rfl
  | x :: rest, h, s => by
      have h1 : saddAll (x :: rest) s = saddAll rest (sadd x s) := rfl
      rw [h1,
        filter_saddAll_of_neg rest (fun y hy => h y (by simp [hy]))
          (sadd x s),
        filter_sadd_of_neg (h x (by simp))]

theorem startsList_cons_ex {a : Char} {as s : List Char}
    (h : startsList (a :: as) s = true) :
    ∃ bs, s = a :: bs ∧ startsList as bs = true := by
  cases s with
  | nil => simp [startsList] at h
  | cons b bs =>
      simp only [startsList, Bool.and_eq_true, beq_iff_eq] at h
      exact ⟨bs, by rw [h.1], h.2⟩

/-- A name that (case-insensitively) ends in `.png` can never produce a
joined path ending in `.efkefc`; hence phase 10 adds no new container. -/
theorem png_path_not_efkefc (pre p : String)
    (h : strEnds (lowerStr p) ".png" = true) :
    strEnds (pjoin2 pre p) ".efkefc" = false := by
  rw [← Bool.not_eq_true]
  intro hcon
  have h' : startsList ('g' :: ['n', 'p', '.'])
      ((p.data.map Char.toLower).reverse) = true := h
  obtain ⟨bs, hbs, -⟩ := startsList_cons_ex h'
  have hmap : p.data.reverse.map Char.toLower = 'g' :: bs := by
    rw [List.map_reverse]
    exact hbs
  cases hpr : p.data.reverse with
  | nil => rw [hpr] at hmap; exact absurd hmap (by simp)
  | cons c cs =>
      rw [hpr] at hmap
      simp only [List.map_cons] at hmap
      have hg : Char.toLower c = 'g' := (List.cons_eq_cons.mp hmap).1
      have hc' : startsList ('c' :: ['f', 'e', 'k', 'f', 'e', '.'])
          ((pjoin2 pre p).data.reverse) = true := hcon
      obtain ⟨ds, hds, -⟩ := startsList_cons_ex hc'
      have hdata : (pjoin2 pre p).data =
          ((pre ++ "\\").data).map normChar ++ p.data.map normChar := by
        show ((pre ++ "\\" ++ p).data).map normChar = _
        rw [String.data_append, List.map_append]
      rw [hdata, List.reverse_append, ← List.map_reverse, hpr,
        List.map_cons, List.cons_append] at hds
      have hnc : normChar c = 'c' := (List.cons_eq_cons.mp hds).1
      by_cases hb : c = '\\'
      · rw [hb] at hnc
        exact absurd hnc (by decide)
      · rw [normChar, if_neg hb] at hnc
        rw [hnc] at hg
        exact absurd hg (by decide)

/-! ### The two runs

`stA1` … `stA10` are the intermediate module states of a first run of
`find_unused_files` from the import-time state; `stB1` … `stB10` those of a
second run on the same directory, starting from the state the first run
left behind. -/

def stA1 (env : Env) : St := phaseSeed env initSt
def stA2 (env : Env) : St := phasePlugins env (stA1 env)
def stA3 (env : Env) : St := phaseDataWalk env (stA2 env)
def stA4 (env : Env) : St := phaseEffekseer env (stA3 env)
def stA5 (env : Env) : St := phaseAnimCollect env (stA4 env)
def stA6 (env : Env) : St := phasePluginAnims env (stA5 env)
def stA7 (env : Env) : St := phaseTilesets env (stA6 env)
def stA8 (env : Env) : St := phaseSweep env (stA7 env)
def stA9 (env : Env) : St := phaseAnimResolve env (stA8 env)
def stA10 (env : Env) : St := phaseContainers env (stA9 env)

def stB1 (env : Env) : St := phaseSeed env (stA10 env)
def stB2 (env : Env) : St := phasePlugins env (stB1 env)
def stB3 (env : Env) : St := phaseDataWalk env (stB2 env)
def stB4 (env : Env) : St := phaseEffekseer env (stB3 env)
def stB5 (env : Env) : St := phaseAnimCollect env (stB4 env)
def stB6 (env : Env) : St := phasePluginAnims env (stB5 env)
def stB7 (env : Env) : St := phaseTilesets env (stB6 env)
def stB8 (env : Env) : St := phaseSweep env (stB7 env)
def stB9 (env : Env) : St := phaseAnimResolve env (stB8 env)
def stB10 (env : Env) : St := phaseContainers env (stB9 env)

theorem canonSt_stA1 (env : Env) : canonSt (stA1 env) :=
  canonSt_phaseSeed env _ canonSt_initSt
theorem canonSt_stA2 (env : Env) : canonSt (stA2 env) :=
  canonSt_phasePlugins env _ (canonSt_stA1 env)
theorem canonSt_stA3 (env : Env) : canonSt (stA3 env) :=
  canonSt_phaseDataWalk env _ (canonSt_stA2 env)
theorem canonSt_stA4 (env : Env) : canonSt (stA4 env) :=
  canonSt_phaseEffekseer env _ (canonSt_stA3 env)
theorem canonSt_stA5 (env : Env) : canonSt (stA5 env) :=
  canonSt_phaseAnimCollect env _ (canonSt_stA4 env)
theorem canonSt_stA6 (env : Env) : canonSt (stA6 env) :=
  canonSt_phasePluginAnims env _ (canonSt_stA5 env)
theorem canonSt_stA7 (env : Env) : canonSt (stA7 env) :=
  canonSt_phaseTilesets env _ (canonSt_stA6 env)
theorem canonSt_stA8 (env : Env) : canonSt (stA8 env) :=
  canonSt_phaseSweep env _ (canonSt_stA7 env)
theorem canonSt_stA9 (env : Env) : canonSt (stA9 env) :=
  canonSt_phaseAnimResolve env _ (canonSt_stA8 env)
theorem canonSt_stA10 (env : Env) : canonSt (stA10 env) :=
  canonSt_phaseContainers env _ (canonSt_stA9 env)

theorem stA4_code (env : Env) : (stA4 env).code = (stA3 env).code :=
  phaseEffekseer_code env (stA3 env)
theorem stA5_code (env : Env) : (stA5 env).code = (stA3 env).code :=
  (phaseAnimCollect_code env (stA4 env)).trans (stA4_code env)
theorem stA6_code (env : Env) : (stA6 env).code = (stA3 env).code :=
  (phasePluginAnims_code env (stA5 env)).trans (stA5_code env)
theorem stA7_code (env : Env) : (stA7 env).code = (stA3 env).code :=
  (phaseTilesets_code env (stA6 env)).trans (stA6_code env)
theorem stA8_code (env : Env) : (stA8 env).code = (stA3 env).code :=
  (phaseSweep_code env (stA7 env)).trans (stA7_code env)
theorem stA9_code (env : Env) : (stA9 env).code = (stA3 env).code :=
  (phaseAnimResolve_code env (stA8 env)).trans (stA8_code env)
theorem stA10_code (env : Env) : (stA10 env).code = (stA3 env).code :=
  (phaseContainers_code env (stA9 env)).trans (stA9_code env)

theorem stA4_anims (env : Env) : (stA4 env).anims = ([] : List Int) :=
  phaseEffekseer_anims env (stA3 env)
theorem stA7_anims (env : Env) : (stA7 env).anims = (stA6 env).anims :=
  phaseTilesets_anims env (stA6 env)
theorem stA8_anims (env : Env) : (stA8 env).anims = (stA6 env).anims :=
  (phaseSweep_anims env (stA7 env)).trans (stA7_anims env)
theorem stA9_anims (env : Env) : (stA9 env).anims = (stA6 env).anims :=
  (phaseAnimResolve_anims env (stA8 env)).trans (stA8_anims env)
theorem stA10_anims (env : Env) : (stA10 env).anims = (stA6 env).anims :=
  (phaseContainers_anims env (stA9 env)).trans (stA9_anims env)

theorem stA4_fileVar (env : Env) :
    (stA4 env).fileVar = (stA3 env).fileVar :=
  phaseEffekseer_fileVar env (stA3 env)
theorem stA6_fileVar (env : Env) :
    (stA6 env).fileVar = (stA3 env).fileVar :=
  ((phasePluginAnims_fileVar env (stA5 env)).trans
    (phaseAnimCollect_fileVar env (stA4 env))).trans (stA4_fileVar env)
theorem stA7_fileVar (env : Env) :
    (stA7 env).fileVar = (stA3 env).fileVar :=
  (phaseTilesets_fileVar env (stA6 env)).trans (stA6_fileVar env)
theorem stA9_fileVar (env : Env) :
    (stA9 env).fileVar = (stA8 env).fileVar :=
  phaseAnimResolve_fileVar env (stA8 env)
theorem stA10_fileVar (env : Env) :
    (stA10 env).fileVar = (stA8 env).fileVar :=
  (phaseContainers_fileVar env (stA9 env)).trans (stA9_fileVar env)

theorem usedA9_F (env : Env) {x : String} (h : x ∈ (stA9 env).used) :
    x ∈ (stA10 env).used := used_mono_phaseContainers env _ h
theorem usedA8_F (env : Env) {x : String} (h : x ∈ (stA8 env).used) :
    x ∈ (stA10 env).used :=
  usedA9_F env (used_mono_phaseAnimResolve env _ h)
theorem usedA7_F (env : Env) {x : String} (h : x ∈ (stA7 env).used) :
    x ∈ (stA10 env).used := usedA8_F env (used_mono_phaseSweep env _ h)
theorem usedA6_F (env : Env) {x : String} (h : x ∈ (stA6 env).used) :
    x ∈ (stA10 env).used := usedA7_F env (used_mono_phaseTilesets env _ h)
theorem usedA5_F (env : Env) {x : String} (h : x ∈ (stA5 env).used) :
    x ∈ (stA10 env).used :=
  usedA6_F env (used_mono_phasePluginAnims env _ h)
theorem usedA4_F (env : Env) {x : String} (h : x ∈ (stA4 env).used) :
    x ∈ (stA10 env).used :=
  usedA5_F env (used_mono_phaseAnimCollect env _ h)
theorem usedA3_F (env : Env) {x : String} (h : x ∈ (stA3 env).used) :
    x ∈ (stA10 env).used := usedA4_F env (used_mono_phaseEffekseer env _ h)
theorem usedA2_F (env : Env) {x : String} (h : x ∈ (stA2 env).used) :
    x ∈ (stA10 env).used := usedA3_F env (used_mono_phaseDataWalk env _ h)
theorem usedA1_F (env : Env) {x : String} (h : x ∈ (stA1 env).used) :
    x ∈ (stA10 env).used := usedA2_F env (used_mono_phasePlugins env _ h)

theorem unusedF_A1 (env : Env) {x : String}
    (h : x ∈ (stA10 env).unused) : x ∈ (stA1 env).unused :=
  unused_shrink_phasePlugins env _
    (unused_shrink_phaseDataWalk env _
      (unused_shrink_phaseEffekseer env _
        (unused_shrink_phaseAnimCollect env _
          (unused_shrink_phasePluginAnims env _
            (unused_shrink_phaseTilesets env _
              (unused_shrink_phaseSweep env _
                (unused_shrink_phaseAnimResolve env _
                  (unused_shrink_phaseContainers env _ h))))))))

theorem stB1_used (env : Env) : (stB1 env).used = (stA10 env).used := by
  show saddAll (rootFiles env) (stA10 env).used = (stA10 env).used
  refine saddAll_eq_of_subset (canonSt_stA10 env).1 ?_
  intro x hx
  have h1 : x ∈ saddAll (rootFiles env) ([] : List String) :=
    mem_saddAll_left hx
  exact usedA1_F env h1

theorem stB1_unused (env : Env) :
    (stB1 env).unused = (stA1 env).unused := by
  show saddAll (seedCandidates env) (stA10 env).unused = (stA1 env).unused
  refine canonL_ext (canon_saddAll _ (canonSt_stA10 env).2.1)
    (canonSt_stA1 env).2.1 ?_
  intro a
  rw [mem_saddAll]
  constructor
  · rintro (h | h)
    · have h1 : a ∈ saddAll (seedCandidates env) ([] : List String) :=
        mem_saddAll_left h
      exact h1
    · exact unusedF_A1 env h
  · intro h
    have h2 : a ∈ seedCandidates env ∨ a ∈ ([] : List String) :=
      (mem_saddAll _ _ a).mp h
    rcases h2 with h2 | h2
    · exact Or.inl h2
    · cases h2

theorem stB1_code (env : Env) : (stB1 env).code = (stA10 env).code := rfl
theorem stB1_anims (env : Env) : (stB1 env).anims = (stA10 env).anims := rfl

theorem stB1_fileVar (env : Env) (hw : walkFileList env ≠ []) :
    (stB1 env).fileVar = (stA1 env).fileVar :=
  lastOpt_ne_nil hw (stA10 env).fileVar none

theorem stB2_used (env : Env) : (stB2 env).used = (stA10 env).used := by
  show saddAll (pluginPaths env) (stB1 env).used = (stA10 env).used
  rw [stB1_used]
  refine saddAll_eq_of_subset (canonSt_stA10 env).1 ?_
  intro x hx
  have h1 : x ∈ saddAll (pluginPaths env) (stA1 env).used :=
    mem_saddAll_left hx
  exact usedA2_F env h1

theorem stB2_unused (env : Env) :
    (stB2 env).unused = (stA2 env).unused := by
  show eraseAll (pluginPaths env) (stB1 env).unused = (stA2 env).unused
  rw [stB1_unused]
  rfl

theorem stB2_code (env : Env) : (stB2 env).code = (stA10 env).code := by
  show saddAll (pluginPaths env) (stB1 env).code = (stA10 env).code
  rw [stB1_code]
  refine saddAll_eq_of_subset (canonSt_stA10 env).2.2.1 ?_
  intro x hx
  have h1 : x ∈ saddAll (pluginPaths env) (stA1 env).code :=
    mem_saddAll_left hx
  have h2 : x ∈ (stA3 env).code := mem_saddAll_right h1
  rw [← stA10_code] at h2
  exact h2

theorem stB2_anims (env : Env) : (stB2 env).anims = (stA10 env).anims :=
  stB1_anims env

theorem stB2_fileVar (env : Env) (hw : walkFileList env ≠ []) :
    (stB2 env).fileVar = (stA2 env).fileVar := stB1_fileVar env hw

theorem stB3_used (env : Env) : (stB3 env).used = (stA10 env).used := by
  show saddAll (dataCodePaths env) (stB2 env).used = (stA10 env).used
  rw [stB2_used]
  refine saddAll_eq_of_subset (canonSt_stA10 env).1 ?_
  intro x hx
  have h1 : x ∈ saddAll (dataCodePaths env) (stA2 env).used :=
    mem_saddAll_left hx
  exact usedA3_F env h1

theorem stB3_unused (env : Env) :
    (stB3 env).unused = (stA3 env).unused := by
  show eraseAll (dataCodePaths env) (stB2 env).unused = (stA3 env).unused
  rw [stB2_unused]
  rfl

theorem stB3_code (env : Env) : (stB3 env).code = (stA3 env).code := by
  show saddAll (dataCodePaths env) (stB2 env).code = (stA3 env).code
  rw [stB2_code, stA10_code]
  refine saddAll_eq_of_subset (canonSt_stA3 env).2.2.1 ?_
  intro x hx
  have h1 : x ∈ saddAll (dataCodePaths env) (stA2 env).code :=
    mem_saddAll_left hx
  exact h1

theorem stB3_anims (env : Env) : (stB3 env).anims = (stA10 env).anims :=
  stB2_anims env

theorem stB3_fileVar (env : Env) (hw : walkFileList env ≠ []) :
    (stB3 env).fileVar = (stA3 env).fileVar := by
  show lastOpt (dataWalkFileList env) (stB2 env).fileVar
      = (stA3 env).fileVar
  rw [stB2_fileVar env hw]
  rfl

theorem stB4_used (env : Env) : (stB4 env).used = (stA10 env).used := by
  rw [show (stB4 env).used = (phaseEffekseer env (stB3 env)).used from rfl,
    phaseEffekseer_used, stB3_used]
  split
  · rename_i hif
    refine sadd_eq_of_mem (canonSt_stA10 env).1 ?_
    have h1 : "effekseerWasmUrl" ∈ (stA4 env).used := by
      rw [show (stA4 env).used = (phaseEffekseer env (stA3 env)).used
          from rfl, phaseEffekseer_used, if_pos hif]
      exact (mem_sadd _ _ _).mpr (Or.inl rfl)
    exact usedA4_F env h1
  · rfl

theorem stB4_unused (env : Env) :
    (stB4 env).unused = (stA4 env).unused := by
  rw [show (stB4 env).unused = (phaseEffekseer env (stB3 env)).unused
      from rfl,
    phaseEffekseer_unused, stB3_unused,
    show (stA4 env).unused = (phaseEffekseer env (stA3 env)).unused
      from rfl,
    phaseEffekseer_unused]

theorem stB4_code (env : Env) : (stB4 env).code = (stA3 env).code := by
  rw [show (stB4 env).code = (phaseEffekseer env (stB3 env)).code from rfl,
    phaseEffekseer_code, stB3_code]

theorem stB4_anims (env : Env) : (stB4 env).anims = (stA10 env).anims := by
  rw [show (stB4 env).anims = (phaseEffekseer env (stB3 env)).anims
      from rfl,
    phaseEffekseer_anims, stB3_anims]

theorem stB4_fileVar (env : Env) (hw : walkFileList env ≠ []) :
    (stB4 env).fileVar = (stA4 env).fileVar := by
  rw [show (stB4 env).fileVar = (phaseEffekseer env (stB3 env)).fileVar
      from rfl,
    phaseEffekseer_fileVar, stB3_fileVar env hw, ← stA4_fileVar]

theorem stB5_used (env : Env) : (stB5 env).used = (stA10 env).used :=
  stB4_used env
theorem stB5_unused (env : Env) :
    (stB5 env).unused = (stA5 env).unused := stB4_unused env
theorem stB5_code (env : Env) : (stB5 env).code = (stA3 env).code :=
  stB4_code env
theorem stB5_fileVar (env : Env) (hw : walkFileList env ≠ []) :
    (stB5 env).fileVar = (stA5 env).fileVar := stB4_fileVar env hw

theorem stB5_anims (env : Env) : (stB5 env).anims =
    unionFold
      (fun cf => if strEnds cf ".json" then env.collectIdsOf cf else [])
      (stA3 env).code (stA10 env).anims := by
  show unionFold _ (stB4 env).code (stB4 env).anims = _
  rw [stB4_code, stB4_anims]

theorem stA5_anims_mem (env : Env) (x : Int) :
    x ∈ (stA5 env).anims ↔
      ∃ cf ∈ (stA3 env).code,
        x ∈ (if strEnds cf ".json" then env.collectIdsOf cf else []) := by
  rw [show (stA5 env).anims
      = unionFold
          (fun cf => if strEnds cf ".json" then env.collectIdsOf cf else [])
          (stA4 env).code (stA4 env).anims from rfl,
    stA4_code, stA4_anims, mem_unionFold]
  simp

theorem stB6_used (env : Env) : (stB6 env).used = (stA10 env).used :=
  (phasePluginAnims_used env (stB5 env)).trans (stB5_used env)
theorem stB6_unused (env : Env) :
    (stB6 env).unused = (stA6 env).unused :=
  ((phasePluginAnims_unused env (stB5 env)).trans (stB5_unused env)).trans
    (phasePluginAnims_unused env (stA5 env)).symm
theorem stB6_code (env : Env) : (stB6 env).code = (stA3 env).code :=
  (phasePluginAnims_code env (stB5 env)).trans (stB5_code env)
theorem stB6_fileVar (env : Env) (hw : walkFileList env ≠ []) :
    (stB6 env).fileVar = (stA6 env).fileVar :=
  (((phasePluginAnims_fileVar env (stB5 env)).trans
    (stB5_fileVar env hw)).trans (stA4_fileVar env)).trans
      (stA6_fileVar env).symm

theorem stB6_anims (env : Env) : (stB6 env).anims = (stA6 env).anims := by
  by_cases hpe : env.pluginsExists
  · have hB6eq : (stB6 env).anims =
        saddAll env.pluginAnimIds (stB5 env).anims := by
      rw [show (stB6 env).anims = (phasePluginAnims env (stB5 env)).anims
          from rfl, phasePluginAnims_anims, if_pos hpe]
    have hA6eq : (stA6 env).anims =
        saddAll env.pluginAnimIds (stA5 env).anims := by
      rw [show (stA6 env).anims = (phasePluginAnims env (stA5 env)).anims
          from rfl, phasePluginAnims_anims, if_pos hpe]
    rw [hB6eq, stB5_anims]
    refine canonL_ext
      (canon_saddAll _ (canon_unionFold _ _ (canonSt_stA10 env).2.2.2))
      (canonSt_stA6 env).2.2.2 ?_
    intro x
    have hx10 : x ∈ (stA10 env).anims ↔
        x ∈ env.pluginAnimIds ∨ x ∈ (stA5 env).anims := by
      rw [stA10_anims, hA6eq, mem_saddAll]
    rw [mem_saddAll, mem_unionFold, hA6eq, mem_saddAll, hx10,
      stA5_anims_mem]
    tauto
  · have hB6eq : (stB6 env).anims = (stB5 env).anims := by
      rw [show (stB6 env).anims = (phasePluginAnims env (stB5 env)).anims
          from rfl, phasePluginAnims_anims, if_neg hpe]
    have hA6eq : (stA6 env).anims = (stA5 env).anims := by
      rw [show (stA6 env).anims = (phasePluginAnims env (stA5 env)).anims
          from rfl, phasePluginAnims_anims, if_neg hpe]
    rw [hB6eq, stB5_anims, hA6eq]
    refine canonL_ext
      (canon_unionFold _ _ (canonSt_stA10 env).2.2.2)
      (canonSt_stA5 env).2.2.2 ?_
    intro x
    have hx10 : x ∈ (stA10 env).anims ↔ x ∈ (stA5 env).anims := by
      rw [stA10_anims, hA6eq]
    rw [mem_unionFold, hx10, stA5_anims_mem]
    tauto

theorem stB7_used (env : Env) : (stB7 env).used = (stA10 env).used := by
  show saddAll (tilesetPngs env (stB6 env).code) (stB6 env).used
      = (stA10 env).used
  rw [stB6_code, stB6_used]
  refine saddAll_eq_of_subset (canonSt_stA10 env).1 ?_
  intro x hx
  have h1 : x ∈ (stA7 env).used := by
    rw [show (stA7 env).used
        = saddAll (tilesetPngs env (stA6 env).code) (stA6 env).used
        from rfl, stA6_code]
    exact mem_saddAll_left hx
  exact usedA7_F env h1

theorem stB7_unused (env : Env) :
    (stB7 env).unused = (stA7 env).unused := by
  show eraseAll (tilesetPngs env (stB6 env).code) (stB6 env).unused
      = (stA7 env).unused
  rw [stB6_code, stB6_unused,
    show (stA7 env).unused
      = eraseAll (tilesetPngs env (stA6 env).code) (stA6 env).unused
      from rfl,
    stA6_code]

theorem stB7_code (env : Env) : (stB7 env).code = (stA3 env).code :=
  stB6_code env
theorem stB7_anims (env : Env) : (stB7 env).anims = (stA6 env).anims :=
  stB6_anims env
theorem stB7_fileVar (env : Env) (hw : walkFileList env ≠ []) :
    (stB7 env).fileVar = (stA7 env).fileVar :=
  ((phaseTilesets_fileVar env (stB6 env)).trans
    (stB6_fileVar env hw)).trans
      (phaseTilesets_fileVar env (stA6 env)).symm

theorem stB8_core (env : Env) (hw : walkFileList env ≠ []) :
    sweepCore env (stB7 env).code (stB7 env).unused (stB7 env).fileVar =
      sweepCore env (stA7 env).code (stA7 env).unused
        (stA7 env).fileVar := by
  rw [stB7_code, stB7_unused, stB7_fileVar env hw, stA7_code]

theorem stB8_used (env : Env) (hw : walkFileList env ≠ []) :
    (stB8 env).used = (stA10 env).used := by
  show saddAll
      (sweepCore env (stB7 env).code (stB7 env).unused
        (stB7 env).fileVar).adds (stB7 env).used = (stA10 env).used
  rw [stB8_core env hw, stB7_used]
  refine saddAll_eq_of_subset (canonSt_stA10 env).1 ?_
  intro x hx
  have h1 : x ∈ (stA8 env).used := mem_saddAll_left hx
  exact usedA8_F env h1

theorem stB8_unused (env : Env) (hw : walkFileList env ≠ []) :
    (stB8 env).unused = (stA8 env).unused := by
  show (sweepCore env (stB7 env).code (stB7 env).unused
      (stB7 env).fileVar).unused = (stA8 env).unused
  rw [stB8_core env hw]
  rfl

theorem stB8_fileVar (env : Env) (hw : walkFileList env ≠ []) :
    (stB8 env).fileVar = (stA8 env).fileVar := by
  show (sweepCore env (stB7 env).code (stB7 env).unused
      (stB7 env).fileVar).fv = (stA8 env).fileVar
  rw [stB8_core env hw]
  rfl

theorem stB8_anims (env : Env) : (stB8 env).anims = (stA6 env).anims :=
  stB7_anims env

theorem stB9_core (env : Env) (hw : walkFileList env ≠ []) :
    (stB8 env).anims.foldl (animStep env) ⟨[], (stB8 env).unused⟩ =
      (stA8 env).anims.foldl (animStep env) ⟨[], (stA8 env).unused⟩ := by
  rw [stB8_anims, stB8_unused env hw, stA8_anims]

theorem stB9_used (env : Env) (hw : walkFileList env ≠ []) :
    (stB9 env).used = (stA10 env).used := by
  show saddAll
      ((stB8 env).anims.foldl (animStep env) ⟨[], (stB8 env).unused⟩).adds
      (stB8 env).used = (stA10 env).used
  rw [stB9_core env hw, stB8_used env hw]
  refine saddAll_eq_of_subset (canonSt_stA10 env).1 ?_
  intro x hx
  have h1 : x ∈ (stA9 env).used := mem_saddAll_left hx
  exact usedA9_F env h1

theorem stB9_unused (env : Env) (hw : walkFileList env ≠ []) :
    (stB9 env).unused = (stA9 env).unused := by
  show ((stB8 env).anims.foldl (animStep env)
      ⟨[], (stB8 env).unused⟩).unused = (stA9 env).unused
  rw [stB9_core env hw]
  rfl

theorem stB9_fileVar (env : Env) (hw : walkFileList env ≠ []) :
    (stB9 env).fileVar = (stA9 env).fileVar :=
  ((phaseAnimResolve_fileVar env (stB8 env)).trans
    (stB8_fileVar env hw)).trans (stA9_fileVar env).symm

/-- Phase 10 adds only image paths, so the set of containers obtained by
filtering the final used set equals the one filtered before the phase. -/
theorem stA10_used_filter (env : Env) :
    (stA10 env).used.filter (fun u => strEnds u ".efkefc") =
      (stA9 env).used.filter (fun u => strEnds u ".efkefc") := by
  show (saddAll
      (((stA9 env).used.filter (fun u => strEnds u ".efkefc")).foldl
        (contFile env (stA9 env).fileVar) ⟨[], (stA9 env).unused⟩).adds
      (stA9 env).used).filter (fun u => strEnds u ".efkefc") = _
  refine filter_saddAll_of_neg _ ?_ _
  intro x hx
  rcases contFold_adds_mem env (stA9 env).fileVar _ _ x hx with
    h | ⟨p, hp, rfl⟩
  · cases h
  · exact png_path_not_efkefc _ p hp

theorem stB10_unused (env : Env) (hw : walkFileList env ≠ []) :
    (stB10 env).unused = (stA10 env).unused := by
  show (((stB9 env).used.filter (fun u => strEnds u ".efkefc")).foldl
      (contFile env (stB9 env).fileVar)
      ⟨[], (stB9 env).unused⟩).unused = (stA10 env).unused
  rw [stB9_used env hw, stA10_used_filter, stB9_fileVar env hw,
    stB9_unused env hw]
  rfl

/-- C8: running `find_unused_files` a second time on the same untouched
directory, from the module-level state the first run left behind, returns
the same unused list as the first run.  The hypothesis says the directory
holds at least one file (otherwise the stale loop variable keeps its value
from the previous run, though it is then never consulted). -/
theorem find_unused_files_idempotent (env : Env)
    (hw : walkFileList env ≠ []) :
    (find_unused_files env (find_unused_files env initSt).2).1 =
      (find_unused_files env initSt).1 := by
  show sortedSet (stB10 env).unused = sortedSet (stA10 env).unused
  rw [stB10_unused env hw]

/-- C8 (witness): instantiation at the concrete directory `env1`. -/
theorem find_unused_files_idempotent_witness :
    walkFileList env1 ≠ [] ∧
    (find_unused_files env1 (find_unused_files env1 initSt).2).1 =
      (find_unused_files env1 initSt).1 :=
  ⟨by decide, find_unused_files_idempotent env1 (by decide)⟩
